import Mathlib

/-!
Verification of the deterministic opinion-synthesis and multi-run consensus
core of the automaton-auditor repository.

The definitions below are a shallow embedding of the Python source:
  - `src/src/core/evidence_registry.py` (`EvidenceRecord`, `EvidenceRegistry`),
  - `src/src/state.py` (`Evidence`, `JudicialOpinion`, `CriterionResult`,
    `AuditReport`, `AuditRun`, `AgentState`),
  - `src/src/nodes/justice.py` (`ChiefJusticeNode`),
  - `src/src/nodes/meta_audit.py` (`MetaAuditNode._consolidate_evidence`).

Modelling conventions used throughout:
  - Python `dict`s are embedded as association lists (`List (String × _)`)
    with Python's semantics: assignment to an existing key updates the value
    in place (keeping its position), assignment to a new key appends at the
    end, and iteration follows list order, exactly as CPython dicts do.
  - Python `float`s are embedded as `ℚ`.  Every constant that occurs in the
    source (0.3, 0.4, 0.6, 0.7, 1.5, 0.5, 0.2) and every confidence or
    stability value manipulated here is an exact decimal, and the quantities
    compared against them are either exact decimals or fractions with
    denominator at most 4 (weighted averages), or run-count fractions; at the
    scale of the program's values the IEEE doubles of the source order
    exactly like the rationals, so `ℚ` comparisons are faithful.
  - Python `round` (banker's rounding, round half to even) is `pyRound`.
    `round(a/b)` in the source is applied to a float quotient whose value is
    within 2⁻⁴⁰ of the rational `a/b` and at least 1/6 away from any
    half-integer unless it is exactly a dyadic half, so rounding the rational
    agrees with rounding the double.
  - Wall-clock timestamp fields (`timestamp`, `audit_date`) and the fields
    that are pure presentation of other fields (`executive_summary`, which
    renders `overall_score`) are metadata excluded from the model, as are the
    free-text `argument`/`content`/`rationale` payloads that the synthesis
    logic never reads.
  - `reasoning_trace` strings are interpolated f-strings; they are embedded
    as the inductive `TraceEntry`/`MetaTrace`, one constructor per
    `reasoning_trace.append` site in the source, carrying exactly the data
    interpolated into that string.  `remediation`, `dissent_summary` and
    `detected_contradictions` are kept as literal strings.
-/

/-- Python's `needle in hay` check at the head position: does `hay` start
with `needle`?  (Helper for `pyIn`.) -/
def headMatch : List Char → List Char → Bool
  | [], _ => true
  | _ :: _, [] => false
  | a :: as, b :: bs => a == b && headMatch as bs

/-- Substring occurrence on character lists (helper for `pyIn`). -/
def subIn (needle : List Char) : List Char → Bool
  | [] => headMatch needle []
  | b :: bs => headMatch needle (b :: bs) || subIn needle bs

/-- Python's `needle in hay` substring test on strings.  The empty needle is
contained in every string, as in Python. -/
def pyIn (needle hay : String) : Bool :=
  subIn needle.toList hay.toList

/-- Python's built-in `round` on a rational value: round half to even
(banker's rounding), as applied by the source to score means. -/
def pyRound (q : ℚ) : ℤ :=
  let f : ℤ := ⌊q⌋
  let r : ℚ := q - f
  if r < 1/2 then f
  else if 1/2 < r then f + 1
  else if f % 2 = 0 then f else f + 1

/-- `clamp(x, 1, 5)`: the bound the specification's invariant
`finalScore = clamp(baseScore - penaltyApplied, 1, 5)` refers to, and the
clamp performed by `justice.py` line 264 (`max(1, min(5, final_score))`). -/
def clampScore (x : ℤ) : ℤ := max 1 (min 5 x)

/-- Python `str.title()` on ASCII text: the first letter of every
alphabetic run is uppercased, the rest lowercased
(used for `dimension_name = criterion_id.replace("_", " ").title()`). -/
def pyTitleGo : Bool → List Char → List Char
  | _, [] => []
  | prevAlpha, c :: cs =>
      if c.isAlpha then
        (if prevAlpha then c.toLower else c.toUpper) :: pyTitleGo true cs
      else c :: pyTitleGo false cs

/-- Python `str.title()` (ASCII). -/
def pyTitle (s : String) : String := ⟨pyTitleGo false s.toList⟩

section Dicts

variable {α : Type}

/-- Python dict lookup `d.get(k)` / `d[k]` on an association list:
first entry with the key. -/
def dictGet? (d : List (String × α)) (k : String) : Option α :=
  (d.find? (fun p => p.1 == k)).map Prod.snd

/-- Python dict membership `k in d`. -/
def dictHas (d : List (String × α)) (k : String) : Bool :=
  d.any (fun p => p.1 == k)

/-- Python dict assignment `d[k] = v`: update in place if the key exists
(keeping its position), else append. -/
def dictSet : List (String × α) → String → α → List (String × α)
  | [], k, v => [(k, v)]
  | (k', v') :: rest, k, v =>
      if k' == k then (k', v) :: rest else (k', v') :: dictSet rest k v

/-- `defaultdict(int)` increment `d[k] += 1`. -/
def dictIncr : List (String × ℕ) → String → List (String × ℕ)
  | [], k => [(k, 1)]
  | (k', n) :: rest, k =>
      if k' == k then (k', n + 1) :: rest else (k', n) :: dictIncr rest k

/-- Grouping step `d.setdefault(k, []).append(x)` used by the
`by_criterion` grouping of `ChiefJusticeNode.__call__`. -/
def dictPush : List (String × List α) → String → α → List (String × List α)
  | [], k, x => [(k, [x])]
  | (k', l) :: rest, k, x =>
      if k' == k then (k', l ++ [x]) :: rest else (k', l) :: dictPush rest k x

end Dicts

/-- The three judge personas (the `Literal["Prosecutor", "Defense",
"TechLead"]` of `state.py`). -/
inductive Judge where
  | prosecutor
  | defense
  | techLead
  deriving Repr, DecidableEq

/-- `state.Evidence`: the forensic evidence records consumed by the Chief
Justice (fields `goal`, `found`, `confidence`; the `content`/`location`/
`rationale`/`timestamp` payloads are never read by the synthesis logic). -/
structure Evidence where
  goal : String
  found : Bool
  confidence : ℚ
  deriving Repr, DecidableEq

/-- `state.JudicialOpinion` (the `argument` free text is never read by the
synthesis logic and the `timestamp` is wall-clock metadata). -/
structure JudicialOpinion where
  judge : Judge
  criterionId : String
  score : ℤ
  citedEvidenceIds : List String
  deriving Repr, DecidableEq

/-- `evidence_registry.EvidenceRecord`.  `existsFlag` is the source's
`exists` field.  `stabilityScore` and `seenInRuns` are the attributes the
meta consolidator stores on the record (`record.stability_score`,
`record.seen_in_runs`; the specification's data model declares
`stabilityScore` with default 1.0). -/
structure EvidenceRecord where
  id : String
  source : String
  artifactPath : Option String
  claimReference : Option String
  existsFlag : Bool
  stabilityScore : ℚ := 1
  seenInRuns : List ℤ := []
  deriving Repr, DecidableEq

/-- One constructor per `reasoning_trace.append` call site of
`ChiefJusticeNode`, carrying the data interpolated into the appended
f-string. -/
inductive TraceEntry where
  /-- "Citation Validation: Judge {judge} pruned due to invalid citation: {cit}." -/
  | citationPruned (judge : Judge) (cit : String)
  /-- "Calibrated Override Triggered: Heavy penalty (Score 1) due to low evidence confidence ({conf})." -/
  | calibratedHeavy (conf : ℚ)
  /-- "Calibrated Override Triggered: Moderate penalty (Cap 2) due to mid-range evidence confidence ({conf})." -/
  | calibratedModerate (conf : ℚ)
  /-- "Calibrated Override Passed: Sufficient evidence confidence ({conf})." -/
  | calibratedPassed (conf : ℚ)
  /-- "Security Override Triggered: Prosecutor score ({s}) capped final score at 3." -/
  | securityTriggered (s : ℤ)
  /-- "Security Override Passed: Prosecutor did not identify safety flaws." -/
  | securityPassed
  /-- "Variance Arbitration: Pruned high outlier ..." -/
  | variancePrunedHigh (judge : Judge) (score : ℤ) (conf : ℚ)
  /-- "Variance Arbitration: Pruned low outlier ..." -/
  | variancePrunedLow (judge : Judge) (score : ℤ) (conf : ℚ)
  /-- "Variance Arbitration: Outlier ... kept within calibrated bounds." -/
  | varianceKept (judge : Judge) (score : ℤ)
  /-- "Variance Arbitration Passed: Variance (Δ{v}) within stable limits." -/
  | variancePassed (v : ℤ)
  /-- "Fallback: All judges pruned. Base score set to 1." -/
  | fallbackAllPruned
  /-- "Functionality Weighting Applied: 2x multiplier for TechLead. ..." -/
  | functionalityWeighted (validJudges : List Judge) (score : ℤ)
  /-- "Median Stabilization Applied: Computed rounded mean of valid judges ..." -/
  | medianStabilized (validJudges : List Judge) (score : ℤ)
  /-- "Contradiction Penalty Applied: Deducted {d} points. -> {msg}" -/
  | contradictionPenalty (d : ℤ) (msg : String)
  /-- "Final Score Locked: {s}/5." -/
  | finalLocked (s : ℤ)
  /-- "Systemic Coherence Penalty: Architecture score reduced by 1 because State Management validation failed downstream." -/
  | coherencePenalty
  /-- "Systemic Coherence Cap: Score capped at 4. Perfection (5) cannot be claimed without verifiable tests." -/
  | coherenceCap
  deriving Repr, DecidableEq

/-- `state.CriterionResult` (every field the source constructs except the
wall-clock-free text duplicates noted in the module docstring). -/
structure CriterionResult where
  dimensionId : String
  dimensionName : String
  finalScore : ℤ
  baseScore : ℤ
  penaltyApplied : ℤ
  prosecutorScore : ℤ
  defenseScore : ℤ
  techLeadScore : ℤ
  dissentSummary : Option String
  contradictionFlag : Bool
  reasoningTrace : List TraceEntry
  remediation : String
  deriving Repr, DecidableEq

/-- `state.AuditReport` (without the `audit_date` timestamp and the
`executive_summary`, which only renders `overall_score` into prose). -/
structure AuditReport where
  repoUrl : String
  overallScore : ℚ
  criteria : List CriterionResult
  remediationPlan : String
  detectedContradictions : List String
  evidenceSummary : List (String × ℕ)
  deriving Repr, DecidableEq

/-- `state.AgentState`, restricted to the fields `ChiefJusticeNode.__call__`
reads: the evidence dict (detective name → list), the opinion list, the
canonical registry and the repository url. -/
structure AgentState where
  repoUrl : String
  evidences : List (String × List Evidence)
  opinions : List JudicialOpinion
  registry : List (String × EvidenceRecord)
  deriving Repr, DecidableEq

/-- `state.AuditRun` (without the wall-clock `timestamp`). -/
structure AuditRun where
  runId : ℤ
  overallScore : ℚ
  opinions : List JudicialOpinion
  registryState : List (String × EvidenceRecord)
  contradictionsFound : List String
  deriving Repr, DecidableEq

/-- One constructor per `reasoning_trace.append` call site of the meta
layer (`MetaAuditNode._consolidate_evidence` and
`ChiefJusticeNode.meta_override`). -/
inductive MetaTrace where
  /-- "Flagged transient evidence: {claim_reference} ({stability})" -/
  | transient (claimReference : Option String) (stability : ℚ)
  /-- "Meta-Override Applied: Penalized {crit} by {penalty} due to low evidence stability ({avg})." -/
  | penalized (critId : String) (penalty : ℚ) (stability : ℚ)
  /-- "Meta-Override Applied: Boosted {crit} to 5.0 due to 100% evidence stability across all runs." -/
  | boosted (critId : String)
  deriving Repr, DecidableEq

/-! ## Evidence registry (`evidence_registry.EvidenceRegistry`) -/

/-- `EvidenceRegistry.add`: `self._store[record.id] = record` — a plain dict
assignment (it overwrites an existing entry with the same id; the method has
no failure path). -/
def regAdd (store : List (String × EvidenceRecord)) (record : EvidenceRecord) :
    List (String × EvidenceRecord) :=
  dictSet store record.id record

/-- `EvidenceRegistry.get`: `self._store[evidence_id]` (`none` models the
`KeyError` of a missing key). -/
def regGet (store : List (String × EvidenceRecord)) (evidenceId : String) :
    Option EvidenceRecord :=
  dictGet? store evidenceId

/-- `EvidenceRegistry.exists`: `evidence_id in self._store`. -/
def regExists (store : List (String × EvidenceRecord)) (evidenceId : String) : Bool :=
  dictHas store evidenceId

/-! ## Chief Justice per-criterion synthesis (`justice.ChiefJusticeNode`) -/

/-- The evidence/criterion association used throughout `justice.py`
(lines 22-23, 31-32, 197-198):
`criterion_id.lower() in ev.goal.lower() or
 any(word in ev.goal.lower() for word in criterion_id.lower().split('_'))`. -/
def evMatches (criterionId goal : String) : Bool :=
  let goalL := goal.toLower
  let cidL := criterionId.toLower
  pyIn cidL goalL || (cidL.splitOn "_").any (fun w => pyIn w goalL)

/-- `ChiefJusticeNode._detect_cross_evidence_contradiction` (lines 11-44). -/
def detectCrossEvidenceContradiction (evidences : List (String × List Evidence))
    (criterionId : String) : Bool × String :=
  let docClaimsFound :=
    match dictGet? evidences "doc" with
    | some l => l.any (fun ev =>
        evMatches criterionId ev.goal && ev.found && ev.confidence > 3/5)
    | none => false
  let repoEvidenceMissing :=
    match dictGet? evidences "repo" with
    | some l =>
        let relevantRepo := l.any (fun ev => evMatches criterionId ev.goal)
        let missing := l.any (fun ev =>
          evMatches criterionId ev.goal && !ev.found && ev.confidence > 3/5)
        -- "If repo scanned but found *no* relevant files explicitly,
        -- missing is implicitly True"
        missing || (docClaimsFound && !relevantRepo && decide (0 < l.length))
    | none => false
  if docClaimsFound && repoEvidenceMissing then
    (true, "Documentation claims structural existence for \x27" ++ criterionId ++
      "\x27, but static repository forensic tools explicitly could not find supporting code artifacts.")
  else (false, "")

/-- The status string returned by `_apply_calibrated_override`
("OVERRIDE_HEAVY" / "OVERRIDE_MODERATE" / "PASSED"). -/
inductive Status where
  | overrideHeavy
  | overrideModerate
  | passed
  deriving Repr, DecidableEq

/-- `ChiefJusticeNode._apply_calibrated_override` (lines 46-66).  The first
component models the Python `score_override` (`None` when the check passes). -/
def applyCalibratedOverride (maxConfidence : ℚ) (criterionId : String)
    (remediation : String) (dissentSummary : Option String)
    (reasoningTrace : List TraceEntry) :
    Option ℤ × Status × String × Option String × List TraceEntry :=
  if maxConfidence < 3/10 then
    (some 1, Status.overrideHeavy,
     "CRITICAL MISSING COMPONENT: No tangible artifacts found matching " ++ criterionId ++ ".",
     some "Overruled judges; confidence threshold not met for architectural claims.",
     reasoningTrace ++ [TraceEntry.calibratedHeavy maxConfidence])
  else if maxConfidence < 7/10 then
    (some 2, Status.overrideModerate,
     "GENERIC IMPLEMENTATION: Only basic signals found for " ++ criterionId ++
       ". Lacks advanced architectural patterns.",
     dissentSummary,
     reasoningTrace ++ [TraceEntry.calibratedModerate maxConfidence])
  else
    (none, Status.passed, remediation, dissentSummary,
     reasoningTrace ++ [TraceEntry.calibratedPassed maxConfidence])

/-- The judge-score mapping `scores = {"Prosecutor": 3, "Defense": 3,
"TechLead": 3}` of `__call__` line 182 (a dict with exactly these three
keys). -/
structure Scores where
  prosecutor : ℤ
  defense : ℤ
  techLead : ℤ
  deriving Repr, DecidableEq

/-- `scores[j]`. -/
def Scores.get (s : Scores) : Judge → ℤ
  | Judge.prosecutor => s.prosecutor
  | Judge.defense => s.defense
  | Judge.techLead => s.techLead

/-- `scores[j] = v`. -/
def Scores.set (s : Scores) : Judge → ℤ → Scores
  | Judge.prosecutor, v => { s with prosecutor := v }
  | Judge.defense, v => { s with defense := v }
  | Judge.techLead, v => { s with techLead := v }

/-- `for op in ops: scores[op.judge] = op.score` starting from the neutral
default 3 for each judge (lines 182-186). -/
def buildScores (ops : List JudicialOpinion) : Scores :=
  ops.foldl (fun sc op => sc.set op.judge op.score) ⟨3, 3, 3⟩

/-- The `cited_evidences` dict of `__call__` lines 184-188, read back through
`cited_evidences.get(judge, [])`: absent judges map to `[]`. -/
structure CitedMap where
  prosecutor : List String
  defense : List String
  techLead : List String
  deriving Repr, DecidableEq

/-- `cited_evidences.get(j, [])`. -/
def CitedMap.get (c : CitedMap) : Judge → List String
  | Judge.prosecutor => c.prosecutor
  | Judge.defense => c.defense
  | Judge.techLead => c.techLead

/-- `cited_evidences[op.judge] = op.cited_evidence_ids` over the opinion
list. -/
def buildCited (ops : List JudicialOpinion) : CitedMap :=
  ops.foldl (fun c op =>
    match op.judge with
    | Judge.prosecutor => { c with prosecutor := op.citedEvidenceIds }
    | Judge.defense => { c with defense := op.citedEvidenceIds }
    | Judge.techLead => { c with techLead := op.citedEvidenceIds }) ⟨[], [], []⟩

/-- `ChiefJusticeNode._apply_security_override` (lines 68-77). -/
def applySecurityOverride (criterionId : String) (scores : Scores)
    (remediation : String) (reasoningTrace : List TraceEntry) :
    Option ℤ × String × List TraceEntry :=
  if pyIn "safe" criterionId.toLower || pyIn "security" criterionId.toLower then
    if scores.prosecutor ≤ 3 then
      (some (min scores.techLead 3),
       "IMMEDIATE FIX REQUIRED: Security/safety vulnerabilities detected by Prosecutor must be patched.",
       reasoningTrace ++ [TraceEntry.securityTriggered scores.prosecutor])
    else
      (none, remediation, reasoningTrace ++ [TraceEntry.securityPassed])
  else (none, remediation, reasoningTrace)

/-- `sorted(scores.values())[1]` for the three judge scores: the median of
three values. -/
def median3 (a b c : ℤ) : ℤ := max (min a b) (min (max a b) c)

/-- The outlier scan of `_perform_variance_arbitration` lines 97-104:
iterate the `scores` dict in its insertion order (Prosecutor, Defense,
TechLead), keeping the first judge of strictly maximal absolute deviation
from the median (`max_dev` starts at -1, comparison is strict `>`). -/
def findOutlier (scores : Scores) (median : ℤ) : Judge × ℤ :=
  let l := [Judge.prosecutor, Judge.defense, Judge.techLead]
  let step := fun (acc : Option Judge × ℤ) (j : Judge) =>
    let dev := |scores.get j - median|
    if dev > acc.2 then (some j, dev) else acc
  let r := l.foldl step (none, -1)
  ((r.1).getD Judge.prosecutor, r.2)

/-- `ChiefJusticeNode._perform_variance_arbitration` (lines 79-122).
Note that, as in the source, the list of valid judges is rebuilt from all
three judges (`valid_judges = ["Prosecutor", "Defense", "TechLead"]`,
line 81): the function does not receive the citation-pruned list. -/
def performVarianceArbitration (scores : Scores) (maxConfidence : ℚ)
    (dissentSummary : Option String) (reasoningTrace : List TraceEntry) :
    List Judge × Option String × List TraceEntry :=
  let validJudges := [Judge.prosecutor, Judge.defense, Judge.techLead]
  let maxScore := max scores.prosecutor (max scores.defense scores.techLead)
  let minScore := min scores.prosecutor (min scores.defense scores.techLead)
  let variance := maxScore - minScore
  if (variance : ℚ) > 3/2 then
    let dissent' := some ("Judicial disagreement observed (Δ" ++ toString variance ++
      ").\nExplanation: Chief Justice arbitrating based on architectural evidence context.")
    let median := median3 scores.prosecutor scores.defense scores.techLead
    let (outlierJudge, maxDev) := findOutlier scores median
    if maxDev > 1 then
      let outlierScore := scores.get outlierJudge
      if outlierScore > 3 && maxConfidence < 2/5 then
        (validJudges.erase outlierJudge, dissent',
         reasoningTrace ++ [TraceEntry.variancePrunedHigh outlierJudge outlierScore maxConfidence])
      else if outlierScore < 2 && maxConfidence > 7/10 then
        (validJudges.erase outlierJudge, dissent',
         reasoningTrace ++ [TraceEntry.variancePrunedLow outlierJudge outlierScore maxConfidence])
      else
        (validJudges, dissent',
         reasoningTrace ++ [TraceEntry.varianceKept outlierJudge outlierScore])
    else (validJudges, dissent', reasoningTrace)
  else
    (validJudges, dissentSummary, reasoningTrace ++ [TraceEntry.variancePassed variance])

/-- `ChiefJusticeNode._apply_functionality_weight_and_median` (lines
124-154). -/
def applyFunctionalityWeightAndMedian (criterionId : String) (scores : Scores)
    (validJudges : List Judge) (reasoningTrace : List TraceEntry) :
    ℤ × List TraceEntry :=
  if validJudges.isEmpty then
    (1, reasoningTrace ++ [TraceEntry.fallbackAllPruned])
  else if (pyIn "architecture" criterionId.toLower ||
      pyIn "orchestration" criterionId.toLower) &&
      validJudges.contains Judge.techLead then
    let weightedSum : ℤ := validJudges.foldl (fun acc j =>
      acc + (if j = Judge.techLead then 2 * scores.get j else scores.get j)) 0
    let totalWeight : ℤ := validJudges.foldl (fun acc j =>
      acc + (if j = Judge.techLead then 2 else 1)) 0
    let finalScore := pyRound ((weightedSum : ℚ) / (totalWeight : ℚ))
    (finalScore, reasoningTrace ++ [TraceEntry.functionalityWeighted validJudges finalScore])
  else
    let s : ℤ := validJudges.foldl (fun acc j => acc + scores.get j) 0
    let finalScore := pyRound ((s : ℚ) / (validJudges.length : ℚ))
    (finalScore, reasoningTrace ++ [TraceEntry.medianStabilized validJudges finalScore])

/-- The evidence-statistics loop of `__call__` lines 191-203, producing
`(evidence_found_count, evidence_missing_count, max_confidence)`. -/
def statsStep (criterionId : String) (acc : ℕ × ℕ × ℚ) (ev : Evidence) : ℕ × ℕ × ℚ :=
  if evMatches criterionId ev.goal then
    if ev.found then (acc.1 + 1, acc.2.1, max acc.2.2 ev.confidence)
    else (acc.1, acc.2.1 + 1, acc.2.2)
  else acc

/-- `(evidence_found_count, evidence_missing_count, max_confidence)` over
every detective's evidence list (`max_confidence` starts at 0.0). -/
def gatherEvidenceStats (evidences : List (String × List Evidence))
    (criterionId : String) : ℕ × ℕ × ℚ :=
  evidences.foldl (fun acc p => p.2.foldl (statsStep criterionId) acc) (0, 0, 0)

/-- `evidence_found_count`: the number of evidence records matching the
criterion with `found = True` (the claim's "matching evidence with
`exists = true`" count). -/
def evidenceFoundCount (evidences : List (String × List Evidence))
    (criterionId : String) : ℕ :=
  (gatherEvidenceStats evidences criterionId).1

/-- Step 0, "Citation Validation (Hallucination Guard)" (lines 210-218):
for each judge (iterating the snapshot `list(valid_judges)` = all three, in
dict order), the first cited id missing from the registry prunes the judge
and appends a trace entry (`break` stops at the first invalid citation). -/
def validateCitations (registry : List (String × EvidenceRecord))
    (cited : CitedMap) : List Judge × List TraceEntry :=
  [Judge.prosecutor, Judge.defense, Judge.techLead].foldl
    (fun (acc : List Judge × List TraceEntry) j =>
      match (cited.get j).find? (fun c => !(regExists registry c)) with
      | some c => (acc.1.erase j, acc.2 ++ [TraceEntry.citationPruned j c])
      | none => acc)
    ([Judge.prosecutor, Judge.defense, Judge.techLead], [])

/-- Lines 205-248 of `ChiefJusticeNode.__call__`: citation validation,
calibrated override, security override, then — on the non-overridden path —
variance arbitration followed by functionality weighting / median
stabilization (with the moderate-override cap).  Returns
`(final_score, remediation, dissent_summary, reasoning_trace)` as they stand
at line 248.  Note that, as in the source, the `valid_judges` list produced
by citation validation is discarded: line 237 rebinds `valid_judges` to the
return value of `_perform_variance_arbitration`, which starts again from all
three judges. -/
def synthCore (state : AgentState) (criterionId : String)
    (ops : List JudicialOpinion) : ℤ × String × Option String × List TraceEntry :=
  let scores := buildScores ops
  let cited := buildCited ops
  let maxConfidence := (gatherEvidenceStats state.evidences criterionId).2.2
  let cv := validateCitations state.registry cited
  let trace0 := cv.2
  let (overrideScore, status, remediation1, dissent1, trace1) :=
    applyCalibratedOverride maxConfidence criterionId "Continue tracking." none trace0
  let (secScore, secRemediation, trace2) :=
    applySecurityOverride criterionId scores remediation1 trace1
  match status, secScore with
  | Status.overrideHeavy, _ =>
      -- `final_score = override_score` (here `override_score` is `some 1`)
      (overrideScore.getD 1, remediation1, dissent1, trace2)
  | _, some s => (s, secRemediation, dissent1, trace2)
  | _, none =>
      let (validJudges, dissent2, trace3) :=
        performVarianceArbitration scores maxConfidence dissent1 trace2
      let (fs, trace4) :=
        applyFunctionalityWeightAndMedian criterionId scores validJudges trace3
      -- "If moderate override, cap the score" (`override_score` is `some 2`)
      let fs2 := if status = Status.overrideModerate then min fs (overrideScore.getD 2) else fs
      (fs2, remediation1, dissent2, trace4)

/-- Lines 250-282 of `ChiefJusticeNode.__call__`: record the base score,
apply the cross-evidence contradiction penalty, clamp, and build the
`CriterionResult`.  The second component is the message appended to
`global_contradictions` (if any). -/
def assembleResult (state : AgentState) (criterionId : String) (scores : Scores)
    (finalScore0 : ℤ) (remediation : String) (dissentSummary : Option String)
    (trace : List TraceEntry) : CriterionResult × Option String :=
  let baseScore := finalScore0
  let contra := detectCrossEvidenceContradiction state.evidences criterionId
  let hasContradiction := contra.1
  let contraMsg := contra.2
  let final1 := if hasContradiction then max 1 (finalScore0 - 2) else finalScore0
  let penaltyApplied := if hasContradiction then baseScore - final1 else 0
  let trace1 := if hasContradiction then
      trace ++ [TraceEntry.contradictionPenalty (baseScore - final1) contraMsg]
    else trace
  let remediation1 := if hasContradiction then
      "RESOLVE CONTRADICTION: " ++ contraMsg
    else remediation
  let final2 := max 1 (min 5 final1)
  ({ dimensionId := criterionId
     dimensionName := pyTitle ((criterionId.replace "_" " "))
     finalScore := final2
     baseScore := baseScore
     penaltyApplied := penaltyApplied
     prosecutorScore := scores.prosecutor
     defenseScore := scores.defense
     techLeadScore := scores.techLead
     dissentSummary := dissentSummary
     contradictionFlag := hasContradiction
     reasoningTrace := trace1 ++ [TraceEntry.finalLocked final2]
     remediation := remediation1 },
   if hasContradiction then some contraMsg else none)

/-- One iteration of the per-criterion loop of `__call__` (lines 178-282):
the synthesized `CriterionResult` together with the global contradiction
contributed by this criterion, if any. -/
def synthCriterion (state : AgentState) (criterionId : String)
    (ops : List JudicialOpinion) : CriterionResult × Option String :=
  let core := synthCore state criterionId ops
  assembleResult state criterionId (buildScores ops) core.1 core.2.1 core.2.2.1 core.2.2.2

/-- The `by_criterion` grouping of `__call__` lines 169-173: a dict from
criterion id to the opinions carrying it, in order of first appearance. -/
def groupByCriterion (ops : List JudicialOpinion) :
    List (String × List JudicialOpinion) :=
  ops.foldl (fun acc op => dictPush acc op.criterionId op) []

/-- Replace the first element satisfying `p` by its image under `f` (the
in-place mutation of the object returned by `next(...)` in the coherence
pass). -/
def mutateFirst (p : α → Bool) (f : α → α) : List α → List α
  | [] => []
  | x :: xs => if p x then f x :: xs else x :: mutateFirst p f xs

/-- Coherence guard 1 (lines 288-295): if the first architecture-named
criterion scores ≥ 4 while the first state-named criterion scores ≤ 2,
decrement that architecture criterion and record a global contradiction. -/
def applyCoherence1 (results : List CriterionResult)
    (globalContradictions : List String) : List CriterionResult × List String :=
  match results.find? (fun c => pyIn "architecture" c.dimensionId.toLower),
      results.find? (fun c => pyIn "state" c.dimensionId.toLower) with
  | some arch, some st =>
      if 4 ≤ arch.finalScore ∧ st.finalScore ≤ 2 then
        (mutateFirst (fun c => pyIn "architecture" c.dimensionId.toLower)
           (fun c => { c with
             finalScore := c.finalScore - 1,
             reasoningTrace := c.reasoningTrace ++ [TraceEntry.coherencePenalty] })
           results,
         globalContradictions ++
           ["Systemic Incoherence: High abstraction (Architecture) built on failing foundation (State Management)."])
      else (results, globalContradictions)
  | _, _ => (results, globalContradictions)

/-- Coherence guard 2 (lines 297-304): if the first test-named criterion
scored exactly 1, every other criterion at 5 is capped at 4. -/
def applyCoherence2 (results : List CriterionResult) : List CriterionResult :=
  match results.find? (fun c => pyIn "test" c.dimensionId.toLower) with
  | some tc =>
      if tc.finalScore = 1 then
        results.map (fun c =>
          if c.finalScore == 5 && !(c.dimensionId == tc.dimensionId) then
            { c with
              finalScore := 4,
              reasoningTrace := c.reasoningTrace ++ [TraceEntry.coherenceCap] }
          else c)
      else results
  | none => results

/-- `ChiefJusticeNode.__call__` (lines 156-324): group opinions by
criterion, synthesize each criterion, run the two coherence guards, and
assemble the `AuditReport`.  Returns `none` when there are no opinions
(the source returns the empty dict `{}`). -/
def chiefJusticeCall (state : AgentState) : Option AuditReport :=
  if state.opinions.isEmpty then none
  else
    let byCriterion := groupByCriterion state.opinions
    let step := byCriterion.foldl
      (fun (acc : List CriterionResult × List String) p =>
        let r := synthCriterion state p.1 p.2
        (acc.1 ++ [r.1],
         acc.2 ++ (match r.2 with | some m => [m] | none => [])))
      ([], [])
    let coh1 := applyCoherence1 step.1 step.2
    let results := applyCoherence2 coh1.1
    let overallScoreSum : ℤ := results.foldl (fun a c => a + c.finalScore) 0
    let overallAvg : ℚ :=
      if results.isEmpty then 0 else (overallScoreSum : ℚ) / (results.length : ℚ)
    some
      { repoUrl := state.repoUrl
        overallScore := overallAvg
        criteria := results
        remediationPlan := "Review the \x27Criteria Evaluation\x27 scores of 3 or below and apply the suggested fixes."
        detectedContradictions := coh1.2
        evidenceSummary := state.evidences.map (fun p => (p.1, p.2.length)) }

/-- The criteria of the report produced by `chiefJusticeCall` (empty when no
report is produced). -/
def reportCriteria (r : Option AuditReport) : List CriterionResult :=
  match r with
  | some rep => rep.criteria
  | none => []

/-! ## Meta layer (`meta_audit.MetaAuditNode._consolidate_evidence` and
`justice.ChiefJusticeNode.meta_override`) -/

/-- The stable identity `f"{record.artifact_path}:{record.claim_reference}"`
(Python renders `None` as the string "None"). -/
def optStr : Option String → String
  | some s => s
  | none => "None"

/-- Stable identity key of an evidence record. -/
def evKey (r : EvidenceRecord) : String :=
  optStr r.artifactPath ++ ":" ++ optStr r.claimReference

/-- The `all_evidence` update of `_consolidate_evidence` lines 64-68: on the
first occurrence of a key, store a copy of the record with
`seen_in_runs = []`; then append the current run id to `seen_in_runs` of the
stored record. -/
def addSeen : List (String × EvidenceRecord) → String → EvidenceRecord → ℤ →
    List (String × EvidenceRecord)
  | [], key, rec, rid => [(key, { rec with seenInRuns := [rid] })]
  | (k, r) :: rest, key, rec, rid =>
      if k == key then (k, { r with seenInRuns := r.seenInRuns ++ [rid] }) :: rest
      else (k, r) :: addSeen rest key rec rid

/-- `evidence_counts` after the double loop of `_consolidate_evidence`
lines 56-62: one increment per evidence record of every run, keyed by stable
identity. -/
def buildCounts (runs : List AuditRun) : List (String × ℕ) :=
  runs.foldl (fun cnts run =>
    run.registryState.foldl (fun c p => dictIncr c (evKey p.2)) cnts) []

/-- `all_evidence` after the double loop of `_consolidate_evidence`. -/
def buildAllEvidence (runs : List AuditRun) : List (String × EvidenceRecord) :=
  runs.foldl (fun ae run =>
    run.registryState.foldl (fun a p => addSeen a (evKey p.2) p.2 run.runId) ae) []

/-- `counts[key]` (the key is always present when looked up by the source). -/
def countOf (cnts : List (String × ℕ)) (k : String) : ℕ :=
  (dictGet? cnts k).getD 0

/-- `MetaAuditNode._consolidate_evidence` (lines 49-77) on a fresh
`MetaAuditState`: the `meta_registry` (stable identity → merged record with
`stability_score = evidence_counts[key] / num_runs`) and the reasoning
trace, which flags every record of stability < 0.6 as transient. -/
def consolidateEvidence (runs : List AuditRun) :
    List (String × EvidenceRecord) × List MetaTrace :=
  let counts := buildCounts runs
  let allEvidence := buildAllEvidence runs
  let numRuns : ℚ := (runs.length : ℚ)
  let metaRegistry := allEvidence.map (fun p =>
    (p.1, { p.2 with stabilityScore := (countOf counts p.1 : ℚ) / numRuns }))
  let trace := metaRegistry.foldl (fun tr p =>
    tr ++ (if p.2.stabilityScore < 3/5 then
      [MetaTrace.transient p.2.claimReference p.2.stabilityScore]
    else [])) []
  (metaRegistry, trace)

/-- The number of runs containing at least one evidence record of the given
stable identity (the quantity the specification's
`stabilityScore = (#runs containing an equivalent record)/(#runs)` refers
to). -/
def runsContaining (runs : List AuditRun) (key : String) : ℕ :=
  (runs.filter (fun run => run.registryState.any (fun p => evKey p.2 == key))).length

/-- The number of evidence records, across all runs, with the given stable
identity (the quantity the source actually counts). -/
def totalOccurrences (runs : List AuditRun) (key : String) : ℕ :=
  runs.foldl (fun n run =>
    n + (run.registryState.filter (fun p => evKey p.2 == key)).length) 0

/-- `relevant_evidence` of `ChiefJusticeNode.meta_override` lines 336-339:
registry values whose `claim_reference` is truthy (non-`None`, non-empty)
and contains the criterion id case-insensitively. -/
def metaRelevantEvidence (metaRegistry : List (String × EvidenceRecord))
    (critId : String) : List EvidenceRecord :=
  (metaRegistry.map Prod.snd).filter (fun ev =>
    match ev.claimReference with
    | some cr => !(cr == "") && pyIn critId.toLower cr.toLower
    | none => false)

/-- `avg_stability` of `meta_override` line 342 (only read when the relevant
evidence list is nonempty). -/
def avgStability (metaRegistry : List (String × EvidenceRecord))
    (critId : String) : ℚ :=
  let rel := metaRelevantEvidence metaRegistry critId
  (rel.foldl (fun a ev => a + ev.stabilityScore) 0) / (rel.length : ℚ)

/-- The per-criterion adjustment of `meta_override` lines 334-351 applied to
one score. -/
def adjustScore (metaRegistry : List (String × EvidenceRecord))
    (critId : String) (score : ℚ) : ℚ :=
  let rel := metaRelevantEvidence metaRegistry critId
  if rel.isEmpty then score
  else
    let avg := avgStability metaRegistry critId
    if avg < 7/10 then
      let penalty : ℚ := if avg < 1/2 then 1/2 else 1/5
      max 1 (score - penalty)
    else if avg = 1 ∧ 4 ≤ score then 5
    else score

/-- The trace entries appended by one iteration of `meta_override`. -/
def metaTraceOf (metaRegistry : List (String × EvidenceRecord))
    (critId : String) (score : ℚ) : List MetaTrace :=
  let rel := metaRelevantEvidence metaRegistry critId
  if rel.isEmpty then []
  else
    let avg := avgStability metaRegistry critId
    if avg < 7/10 then
      [MetaTrace.penalized critId (if avg < 1/2 then 1/2 else 1/5) avg]
    else if avg = 1 ∧ 4 ≤ score then [MetaTrace.boosted critId]
    else []

/-- `ChiefJusticeNode.meta_override` (lines 326-353).  The loop iterates the
copied scores dict and, per criterion, writes only that criterion's key (a
dict write to an existing key keeps its position), so the resulting dict is
the positional map of `adjustScore` over the entries; trace entries are
appended in iteration order. -/
def metaOverride (metaScores : List (String × ℚ))
    (metaRegistry : List (String × EvidenceRecord)) (trace : List MetaTrace) :
    List (String × ℚ) × List MetaTrace :=
  (metaScores.map (fun p => (p.1, adjustScore metaRegistry p.1 p.2)),
   metaScores.foldl (fun tr p => tr ++ metaTraceOf metaRegistry p.1 p.2) trace)

/-! ## Concrete inputs used by the counterexamples and witnesses -/

/-- A state with a well-evidenced architecture criterion (all judges at 5)
and an evidence-free state-management criterion: the coherence pass fires. -/
def stateArchState : AgentState :=
  { repoUrl := "https://example.org/repo"
    evidences := [("repo", [{ goal := "architecture layering verified", found := true, confidence := 9/10 }])]
    opinions :=
      [ { judge := Judge.prosecutor, criterionId := "architecture", score := 5, citedEvidenceIds := [] }
      , { judge := Judge.defense, criterionId := "architecture", score := 5, citedEvidenceIds := [] }
      , { judge := Judge.techLead, criterionId := "architecture", score := 5, citedEvidenceIds := [] }
      , { judge := Judge.prosecutor, criterionId := "state_mgmt", score := 3, citedEvidenceIds := [] } ]
    registry := [] }

/-- A state in which the Prosecutor cites an evidence id absent from the
registry while scoring 5 against two scores of 2. -/
def stateGhostCitation : AgentState :=
  { repoUrl := "https://example.org/repo"
    evidences := [("repo", [{ goal := "quality of code verified", found := true, confidence := 9/10 }])]
    opinions :=
      [ { judge := Judge.prosecutor, criterionId := "quality", score := 5, citedEvidenceIds := ["ghost_id"] }
      , { judge := Judge.defense, criterionId := "quality", score := 2, citedEvidenceIds := [] }
      , { judge := Judge.techLead, criterionId := "quality", score := 2, citedEvidenceIds := [] } ]
    registry := [] }

/-- A state whose only evidence does not match the criterion "testing". -/
def stateNoMatch : AgentState :=
  { repoUrl := "https://example.org/repo"
    evidences := [("repo", [{ goal := "unrelated topic", found := true, confidence := 19/20 }])]
    opinions := []
    registry := [] }

/-- Three unanimous top scores for the criterion "testing". -/
def opsAllFives : List JudicialOpinion :=
  [ { judge := Judge.prosecutor, criterionId := "testing", score := 5, citedEvidenceIds := [] }
  , { judge := Judge.defense, criterionId := "testing", score := 5, citedEvidenceIds := [] }
  , { judge := Judge.techLead, criterionId := "testing", score := 5, citedEvidenceIds := [] } ]

/-- A state with a single opinion whose criterion identifier is the empty
string. -/
def stateEmptyCriterion : AgentState :=
  { repoUrl := "https://example.org/repo"
    evidences := []
    opinions := [ { judge := Judge.defense, criterionId := "", score := 4, citedEvidenceIds := [] } ]
    registry := [] }

/-- A state with two architecture-named criteria: the first scores 3, the
second scores 5, and a state-named criterion scores 1. -/
def stateTwoArch : AgentState :=
  { repoUrl := "https://example.org/repo"
    evidences := [("repo", [{ goal := "architecture overview", found := true, confidence := 9/10 }])]
    opinions :=
      [ { judge := Judge.prosecutor, criterionId := "architecture_docs", score := 3, citedEvidenceIds := [] }
      , { judge := Judge.defense, criterionId := "architecture_docs", score := 3, citedEvidenceIds := [] }
      , { judge := Judge.techLead, criterionId := "architecture_docs", score := 3, citedEvidenceIds := [] }
      , { judge := Judge.prosecutor, criterionId := "architecture_core", score := 5, citedEvidenceIds := [] }
      , { judge := Judge.defense, criterionId := "architecture_core", score := 5, citedEvidenceIds := [] }
      , { judge := Judge.techLead, criterionId := "architecture_core", score := 5, citedEvidenceIds := [] }
      , { judge := Judge.prosecutor, criterionId := "state_mgmt", score := 3, citedEvidenceIds := [] } ]
    registry := [] }

/-- Two registry records sharing one stable identity (`p:c`) but with
distinct ids, as two detectives reporting the same artifact/claim pair
within one run would produce. -/
def recDupA : EvidenceRecord :=
  { id := "a", source := "repo", artifactPath := some "p", claimReference := some "c", existsFlag := true }

/-- Second record of the same stable identity. -/
def recDupB : EvidenceRecord :=
  { id := "b", source := "pdf", artifactPath := some "p", claimReference := some "c", existsFlag := true }

/-- A single run containing two records of the same stable identity. -/
def runDup : AuditRun :=
  { runId := 1, overallScore := 4, opinions := [], registryState := [("a", recDupA), ("b", recDupB)], contradictionsFound := [] }

/-- Five runs of which exactly two contain the identity `p:c`. -/
def runsTwoOfFive : List AuditRun :=
  [ { runId := 1, overallScore := 4, opinions := [], registryState := [("e", recDupA)], contradictionsFound := [] }
  , { runId := 2, overallScore := 4, opinions := [], registryState := [("e", recDupA)], contradictionsFound := [] }
  , { runId := 3, overallScore := 4, opinions := [], registryState := [], contradictionsFound := [] }
  , { runId := 4, overallScore := 4, opinions := [], registryState := [], contradictionsFound := [] }
  , { runId := 5, overallScore := 4, opinions := [], registryState := [], contradictionsFound := [] } ]

/-- Meta registry with one perfectly stable record linked to "architecture"
and one unstable record linked to "unstable_feat" (as in the repository's
own meta-audit test). -/
def metaRegistryPair : List (String × EvidenceRecord) :=
  [ ("stable", { id := "1", source := "repo", artifactPath := some "p", claimReference := some "architecture", existsFlag := true, stabilityScore := 1 })
  , ("unstable", { id := "2", source := "repo", artifactPath := some "p2", claimReference := some "unstable_feat", existsFlag := true, stabilityScore := 2/5 }) ]

/-- Meta scores 4.5 for "architecture" and 4.0 for "unstable_feat". -/
def metaScoresPair : List (String × ℚ) :=
  [("architecture", 9/2), ("unstable_feat", 4)]

/-- Registry records used by the duplicate-add counterexample: same id,
different content. -/
def recX1 : EvidenceRecord :=
  { id := "x", source := "repo", artifactPath := some "a.py", claimReference := some "claim one", existsFlag := true }

/-- Second record with the same id `x`. -/
def recX2 : EvidenceRecord :=
  { id := "x", source := "pdf", artifactPath := some "b.py", claimReference := some "claim two", existsFlag := false }

/-- The `CriterionResult` that `chiefJusticeCall stateArchState` produces
for the evidence-free criterion "state_mgmt". -/
def stateMgmtResult : CriterionResult :=
  { dimensionId := "state_mgmt"
    dimensionName := "State Mgmt"
    finalScore := 1
    baseScore := 1
    penaltyApplied := 0
    prosecutorScore := 3
    defenseScore := 3
    techLeadScore := 3
    dissentSummary := some "Overruled judges; confidence threshold not met for architectural claims."
    contradictionFlag := false
    reasoningTrace := [TraceEntry.calibratedHeavy 0, TraceEntry.finalLocked 1]
    remediation := "CRITICAL MISSING COMPONENT: No tangible artifacts found matching state_mgmt." }

/-- The merged record that consolidating `runsTwoOfFive` produces for the
stable identity `p:c`. -/
def metaRecTwoOfFive : EvidenceRecord :=
  { id := "a", source := "repo", artifactPath := some "p", claimReference := some "c",
    existsFlag := true, stabilityScore := 2/5, seenInRuns := [1, 2] }

/-- A concrete architecture-named criterion result at score 5 (all other
fields inert), used by the coherence-pass witness. -/
def archCrit5 : CriterionResult :=
  { dimensionId := "architecture", dimensionName := "Architecture", finalScore := 5,
    baseScore := 5, penaltyApplied := 0, prosecutorScore := 5, defenseScore := 5,
    techLeadScore := 5, dissentSummary := none, contradictionFlag := false,
    reasoningTrace := [], remediation := "Continue tracking." }

/-- A concrete state-named criterion result at score 1, used by the
coherence-pass witness. -/
def stateCrit1 : CriterionResult :=
  { dimensionId := "state_mgmt", dimensionName := "State Mgmt", finalScore := 1,
    baseScore := 1, penaltyApplied := 0, prosecutorScore := 1, defenseScore := 1,
    techLeadScore := 1, dissentSummary := none, contradictionFlag := false,
    reasoningTrace := [], remediation := "Continue tracking." }

/-! ## General lemmas about the dictionary embedding -/

theorem mem_foldl_append {α β : Type} (f : α → List β) :
    ∀ (l : List α) (acc : List β) (e : β), e ∈ acc →
      e ∈ l.foldl (fun a y => a ++ f y) acc := by
  intro l
  induction l with
  | nil => intro acc e h; simpa using h
  | cons x xs ih =>
      intro acc e h
      exact ih (acc ++ f x) e (List.mem_append_left _ h)

theorem mem_foldl_append_of_mem {α β : Type} (f : α → List β) :
    ∀ (l : List α) (acc : List β) (x : α) (e : β), x ∈ l → e ∈ f x →
      e ∈ l.foldl (fun a y => a ++ f y) acc := by
  intro l
  induction l with
  | nil => intro acc x e h; exact absurd h (List.not_mem_nil x)
  | cons y ys ih =>
      intro acc x e hx he
      rcases List.mem_cons.mp hx with h | h
      · subst h
        exact mem_foldl_append f ys (acc ++ f x) e (List.mem_append_right _ he)
      · exact ih (acc ++ f y) x e h he

theorem dictGet?_mem {α : Type} {d : List (String × α)} {k : String} {v : α}
    (h : dictGet? d k = some v) : ∃ p ∈ d, p.1 = k ∧ p.2 = v := by
  unfold dictGet? at h
  rcases Option.map_eq_some'.mp h with ⟨p, hp, hv⟩
  exact ⟨p, List.mem_of_find?_eq_some hp,
    by simpa using List.find?_some hp, hv⟩

theorem dictGet?_dictSet {α : Type} (d : List (String × α)) (k : String) (v : α) :
    dictGet? (dictSet d k v) k = some v := by
  induction d with
  | nil => simp [dictSet, dictGet?, List.find?]
  | cons p rest ih =>
      obtain ⟨k', v'⟩ := p
      by_cases h : k' == k
      · simp [dictSet, h, dictGet?, List.find?]
      · simp only [dictSet, h, if_false, Bool.false_eq_true]
        simpa [dictGet?, List.find?, h] using ih

theorem dictHas_of_dictGet? {α : Type} {d : List (String × α)} {k : String} {v : α}
    (h : dictGet? d k = some v) : dictHas d k = true := by
  rcases dictGet?_mem h with ⟨p, hp, hk, _⟩
  exact List.any_eq_true.mpr ⟨p, hp, by simp [hk]⟩

/-! ## Claim theorems -/

/-- C1, counterexample.  On `stateArchState` the coherence pass lowers the
architecture criterion's `finalScore` to 4 while leaving `baseScore = 5` and
`penaltyApplied = 0`, so the report contains a `CriterionResult` with
`finalScore ≠ clamp(baseScore - penaltyApplied, 1, 5)`. -/
theorem c1_clamp_counterexample :
    ¬ (∀ c ∈ reportCriteria (chiefJusticeCall stateArchState),
        c.finalScore = clampScore (c.baseScore - c.penaltyApplied)) := by
  with_unfolding_all decide

/-- C4.  The synthesis and report building step is a pure function of the
`AgentState` (opinions, evidence, registry, url): two invocations on equal
inputs return equal reports.  Wall-clock timestamp fields are not part of
the model (they are excluded by the claim). -/
theorem c4_determinism (s t : AgentState) (h : s = t) :
    chiefJusticeCall s = chiefJusticeCall t := by rw [h]

/-- C4, witness: the determinism theorem applied at a concrete state. -/
theorem c4_determinism_witness :
    chiefJusticeCall stateArchState = chiefJusticeCall stateArchState :=
  c4_determinism stateArchState stateArchState rfl

/-- C6, counterexample.  `add` called twice with records sharing the id
"x" silently overwrites: `get "x"` returns the second record, which differs
from the first, so a record is not retrievable unchanged after a later
`add` with the same id, and no `DuplicateIdError` is raised (the source
defines no such error and `add` has no failure path). -/
theorem c6_overwrite_counterexample :
    regGet (regAdd (regAdd [] recX1) recX2) "x" = some recX2 ∧ recX2 ≠ recX1 := by
  with_unfolding_all decide

/-- C6, amended claim: `add(record)` stores the record under `record.id`,
overwriting any previously added record with that id (last add wins), and
never fails — after `add store r`, `get r.id` returns `r` and
`exists r.id` is true, whatever the prior contents of the store. -/
theorem c6_add_overwrites_amended (store : List (String × EvidenceRecord))
    (r : EvidenceRecord) :
    regGet (regAdd store r) r.id = some r ∧ regExists (regAdd store r) r.id = true := by
  refine ⟨dictGet?_dictSet store r.id r, ?_⟩
  exact dictHas_of_dictGet? (dictGet?_dictSet store r.id r)

/-- C2, evaluation at the failing input.  On `stateGhostCitation` the
Prosecutor (score 5) cites the id "ghost_id", which is not in the registry:
the citation-validation step prunes the judge and the reasoning trace names
the persona and the invalid citation, but the final score is 3 — the
rounded mean of all three scores (5, 2, 2) — because
`_perform_variance_arbitration` rebuilds `valid_judges` from scratch and the
synthesis discards the pruned list.  Excluding the Prosecutor as the claim
requires would give `round((2+2)/2) = 2`. -/
theorem c2_citation_pruning_discarded_eval :
    (reportCriteria (chiefJusticeCall stateGhostCitation)).map
      (fun c => (c.finalScore,
        c.reasoningTrace.contains (TraceEntry.citationPruned Judge.prosecutor "ghost_id"))) =
      [(3, true)] ∧
    pyRound ((2 + 2 : ℚ) / 2) = 2 := by
  constructor
  · with_unfolding_all decide
  · with_unfolding_all decide

/-- C5, counterexample.  The claim says the Synthesizer raises if and only
if the criterion identifier is the empty string; but on a state whose only
opinion carries the empty criterion id the pipeline completes normally and
returns a report containing a result for the criterion `""` (the source has
no `raise` statement at all, so the embedding is a total function). -/
theorem c5_empty_criterion_counterexample :
    (chiefJusticeCall stateEmptyCriterion).isSome = true ∧
    (reportCriteria (chiefJusticeCall stateEmptyCriterion)).map
      (fun c => c.dimensionId) = [""] := by
  with_unfolding_all decide

/-- C7, counterexample.  One run containing two evidence records with the
same stable identity `p:c` (distinct ids `a`, `b`) yields
`stabilityScore = 2` for the merged record — the source divides the number
of record occurrences by the number of runs — whereas the number of runs
containing an equivalent record is 1 out of 1, so the claimed ratio is 1. -/
theorem c7_stability_counterexample :
    (dictGet? (consolidateEvidence [runDup]).1 "p:c").map
      (fun r => r.stabilityScore) = some 2 ∧
    runsContaining [runDup] "p:c" = 1 ∧
    ((runsContaining [runDup] "p:c" : ℚ) / ([runDup].length : ℚ) = 1) ∧ (2 : ℚ) ≠ 1 := by
  refine ⟨?_, ?_, ?_, ?_⟩
  · with_unfolding_all decide
  · with_unfolding_all decide
  · with_unfolding_all decide
  · with_unfolding_all decide

/-- C9, counterexample.  On `stateTwoArch` the criterion
"architecture_core" has final score 5 (≥ 4) while "state_mgmt" has final
score 1 (≤ 2), yet no reduction happens and no global contradiction is
appended: the source only inspects the first architecture-named criterion
("architecture_docs", score 3), so the claimed rule does not fire for every
architecture-named criterion. -/
theorem c9_coherence_counterexample :
    (chiefJusticeCall stateTwoArch).map (fun r =>
        (r.criteria.map (fun c => (c.dimensionId, c.finalScore)),
         r.detectedContradictions)) =
      some ([("architecture_docs", 3), ("architecture_core", 5), ("state_mgmt", 1)], []) ∧
    pyIn "architecture" "architecture_core" = true ∧
    pyIn "state" "state_mgmt" = true := by
  refine ⟨?_, ?_, ?_⟩
  · with_unfolding_all decide
  · with_unfolding_all decide
  · with_unfolding_all decide

theorem assembleResult_invariant (s : AgentState) (cid : String) (sc : Scores)
    (f0 : ℤ) (rem : String) (dis : Option String) (tr : List TraceEntry) :
    ((assembleResult s cid sc f0 rem dis tr).1).finalScore =
      clampScore (((assembleResult s cid sc f0 rem dis tr).1).baseScore -
        ((assembleResult s cid sc f0 rem dis tr).1).penaltyApplied) ∧
    1 ≤ ((assembleResult s cid sc f0 rem dis tr).1).finalScore ∧
    ((assembleResult s cid sc f0 rem dis tr).1).finalScore ≤ 5 := by
  unfold assembleResult clampScore
  by_cases h : (detectCrossEvidenceContradiction s.evidences cid).1 <;>
    simp only [h, if_true, if_false, Bool.false_eq_true] <;> refine ⟨?_, ?_, ?_⟩ <;> omega

theorem synthCriterion_invariant (s : AgentState) (cid : String)
    (ops : List JudicialOpinion) :
    ((synthCriterion s cid ops).1).finalScore =
      clampScore (((synthCriterion s cid ops).1).baseScore -
        ((synthCriterion s cid ops).1).penaltyApplied) ∧
    1 ≤ ((synthCriterion s cid ops).1).finalScore ∧
    ((synthCriterion s cid ops).1).finalScore ≤ 5 := by
  unfold synthCriterion
  exact assembleResult_invariant s cid (buildScores ops) _ _ _ _

theorem mem_mutateFirst {α : Type} {p : α → Bool} {f : α → α} :
    ∀ {l : List α} {x : α}, x ∈ mutateFirst p f l →
      x ∈ l ∨ ∃ a, l.find? p = some a ∧ x = f a := by
  intro l
  induction l with
  | nil => intro x h; exact absurd h (List.not_mem_nil x)
  | cons hd tl ih =>
      intro x h
      unfold mutateFirst at h
      by_cases hp : p hd
      · rw [if_pos hp] at h
        rcases List.mem_cons.mp h with h | h
        · exact Or.inr ⟨hd, by simp [List.find?_cons, hp], h⟩
        · exact Or.inl (List.mem_cons_of_mem hd h)
      · rw [if_neg hp] at h
        rcases List.mem_cons.mp h with h | h
        · exact Or.inl (h ▸ List.mem_cons_self hd tl)
        · rcases ih h with h | ⟨a, ha, hx⟩
          · exact Or.inl (List.mem_cons_of_mem hd h)
          · refine Or.inr ⟨a, ?_, hx⟩
            simpa [List.find?_cons, hp] using ha

theorem applyCoherence1_mem {rs : List CriterionResult} {cs : List String}
    {x : CriterionResult} (h : x ∈ (applyCoherence1 rs cs).1) :
    x ∈ rs ∨ ∃ a ∈ rs, 4 ≤ a.finalScore ∧
      x = { a with
            finalScore := a.finalScore - 1,
            reasoningTrace := a.reasoningTrace ++ [TraceEntry.coherencePenalty] } := by
  unfold applyCoherence1 at h
  split at h
  case _ arch st harch hst =>
    split at h
    case isTrue hcond =>
      rcases mem_mutateFirst h with h | ⟨a, ha, hx⟩
      · exact Or.inl h
      · refine Or.inr ⟨a, List.mem_of_find?_eq_some ha, ?_, hx⟩
        have : a = arch := by rw [harch] at ha; exact (Option.some.inj ha).symm
        rw [this]; exact hcond.1
    case isFalse => exact Or.inl h
  case _ => exact Or.inl h

theorem applyCoherence2_mem {rs : List CriterionResult} {x : CriterionResult}
    (h : x ∈ applyCoherence2 rs) :
    x ∈ rs ∨ ∃ a ∈ rs, a.finalScore = 5 ∧
      x = { a with
            finalScore := 4,
            reasoningTrace := a.reasoningTrace ++ [TraceEntry.coherenceCap] } := by
  unfold applyCoherence2 at h
  split at h
  case _ tc htc =>
    split at h
    case isTrue =>
      rcases List.mem_map.mp h with ⟨a, ha, rfl⟩
      by_cases hc : a.finalScore == 5 && !(a.dimensionId == tc.dimensionId)
      · rw [if_pos hc]
        refine Or.inr ⟨a, ha, ?_, rfl⟩
        exact eq_of_beq ((Bool.and_eq_true _ _).mp hc).1
      · rw [if_neg hc]; exact Or.inl ha
    case isFalse => exact Or.inl h
  case _ => exact Or.inl h

theorem synthFold_results (s : AgentState) :
    ∀ (l : List (String × List JudicialOpinion))
      (acc : List CriterionResult × List String),
      (l.foldl (fun (acc : List CriterionResult × List String) p =>
          let r := synthCriterion s p.1 p.2
          (acc.1 ++ [r.1],
           acc.2 ++ (match r.2 with | some m => [m] | none => []))) acc).1 =
        acc.1 ++ l.map (fun p => (synthCriterion s p.1 p.2).1) := by
  intro l
  induction l with
  | nil => intro acc; simp
  | cons hd tl ih => intro acc; simp [ih]

/-- C1, amended claim: for every `CriterionResult` in the report,
`finalScore ∈ {1,…,5}`, and `finalScore` equals
`clamp(baseScore - penaltyApplied, 1, 5)` except that the cross-criterion
coherence pass may lower `finalScore` by exactly 1 below that value without
updating `baseScore` or `penaltyApplied`. -/
theorem c1_clamp_invariant_amended (s : AgentState) (c : CriterionResult)
    (h : c ∈ reportCriteria (chiefJusticeCall s)) :
    (1 ≤ c.finalScore ∧ c.finalScore ≤ 5) ∧
    (c.finalScore = clampScore (c.baseScore - c.penaltyApplied) ∨
     c.finalScore = clampScore (c.baseScore - c.penaltyApplied) - 1) := by
  unfold chiefJusticeCall at h
  by_cases hop : s.opinions.isEmpty
  · rw [if_pos hop] at h
    simp [reportCriteria] at h
  · rw [if_neg hop] at h
    simp only [reportCriteria] at h
    rcases applyCoherence2_mem h with h1 | ⟨a, ha, ha5, rfl⟩
    · rcases applyCoherence1_mem h1 with h2 | ⟨b, hb, hb4, rfl⟩
      · rw [synthFold_results] at h2
        simp only [List.nil_append, List.mem_map] at h2
        obtain ⟨p, _, hc⟩ := h2
        have inv := synthCriterion_invariant s p.1 p.2
        rw [hc] at *
        unfold clampScore at *
        exact ⟨⟨inv.2.1, inv.2.2⟩, Or.inl inv.1⟩
      · rw [synthFold_results] at hb
        simp only [List.nil_append, List.mem_map] at hb
        obtain ⟨p, _, hc⟩ := hb
        have inv := synthCriterion_invariant s p.1 p.2
        rw [hc] at *
        unfold clampScore at *
        constructor
        · constructor <;> simp <;> omega
        · right; simp; omega
    · rcases applyCoherence1_mem ha with h2 | ⟨b, hb, hb4, hab⟩
      · rw [synthFold_results] at h2
        simp only [List.nil_append, List.mem_map] at h2
        obtain ⟨p, _, hc⟩ := h2
        have inv := synthCriterion_invariant s p.1 p.2
        rw [hc] at *
        unfold clampScore at *
        refine ⟨⟨by simp, by simp⟩, Or.inr (by simp; omega)⟩
      · -- `a` was decremented by coherence pass 1 and then capped by pass 2:
        -- impossible, since a decremented score is at most 4 but the cap
        -- requires `a.finalScore = 5`.
        exfalso
        rw [synthFold_results] at hb
        simp only [List.nil_append, List.mem_map] at hb
        obtain ⟨p, _, hc⟩ := hb
        have inv := synthCriterion_invariant s p.1 p.2
        rw [hc] at *
        rw [hab] at ha5
        simp at ha5
        unfold clampScore at inv
        omega

/-- C1, witness: the amended theorem applied to the "state_mgmt" result of
the report on `stateArchState`. -/
theorem c1_clamp_invariant_amended_witness :
    (1 ≤ stateMgmtResult.finalScore ∧ stateMgmtResult.finalScore ≤ 5) ∧
    (stateMgmtResult.finalScore =
        clampScore (stateMgmtResult.baseScore - stateMgmtResult.penaltyApplied) ∨
     stateMgmtResult.finalScore =
        clampScore (stateMgmtResult.baseScore - stateMgmtResult.penaltyApplied) - 1) :=
  c1_clamp_invariant_amended stateArchState stateMgmtResult (by with_unfolding_all decide)

theorem statsStep_count_mono (cid : String) (acc : ℕ × ℕ × ℚ) (ev : Evidence) :
    acc.1 ≤ (statsStep cid acc ev).1 := by
  unfold statsStep
  by_cases h1 : evMatches cid ev.goal <;> by_cases h2 : ev.found <;> simp [h1, h2]

theorem statsFoldInner_mono (cid : String) :
    ∀ (evs : List Evidence) (acc : ℕ × ℕ × ℚ),
      acc.1 ≤ (evs.foldl (statsStep cid) acc).1 := by
  intro evs
  induction evs with
  | nil => intro acc; simp
  | cons ev rest ih =>
      intro acc
      calc acc.1 ≤ (statsStep cid acc ev).1 := statsStep_count_mono cid acc ev
        _ ≤ _ := ih (statsStep cid acc ev)

theorem statsFoldOuter_mono (cid : String) :
    ∀ (l : List (String × List Evidence)) (acc : ℕ × ℕ × ℚ),
      acc.1 ≤ (l.foldl (fun acc p => p.2.foldl (statsStep cid) acc) acc).1 := by
  intro l
  induction l with
  | nil => intro acc; simp
  | cons p rest ih =>
      intro acc
      calc acc.1 ≤ (p.2.foldl (statsStep cid) acc).1 := statsFoldInner_mono cid p.2 acc
        _ ≤ _ := ih (p.2.foldl (statsStep cid) acc)

theorem statsStep_conf_of_count_eq (cid : String) (acc : ℕ × ℕ × ℚ) (ev : Evidence)
    (h : (statsStep cid acc ev).1 = acc.1) : (statsStep cid acc ev).2.2 = acc.2.2 := by
  unfold statsStep at *
  by_cases h1 : evMatches cid ev.goal <;> by_cases h2 : ev.found <;> simp [h1, h2] at *

theorem statsFoldInner_conf (cid : String) :
    ∀ (evs : List Evidence) (acc : ℕ × ℕ × ℚ),
      (evs.foldl (statsStep cid) acc).1 = acc.1 →
      (evs.foldl (statsStep cid) acc).2.2 = acc.2.2 := by
  intro evs
  induction evs with
  | nil => intro acc _; rfl
  | cons ev rest ih =>
      intro acc h
      simp only [List.foldl_cons] at h ⊢
      have hle1 : acc.1 ≤ (statsStep cid acc ev).1 := statsStep_count_mono cid acc ev
      have hle2 : (statsStep cid acc ev).1 ≤ (rest.foldl (statsStep cid) (statsStep cid acc ev)).1 :=
        statsFoldInner_mono cid rest (statsStep cid acc ev)
      have heq : (statsStep cid acc ev).1 = acc.1 := by omega
      rw [ih (statsStep cid acc ev) (by omega), statsStep_conf_of_count_eq cid acc ev heq]

theorem statsFoldOuter_conf (cid : String) :
    ∀ (l : List (String × List Evidence)) (acc : ℕ × ℕ × ℚ),
      (l.foldl (fun acc p => p.2.foldl (statsStep cid) acc) acc).1 = acc.1 →
      (l.foldl (fun acc p => p.2.foldl (statsStep cid) acc) acc).2.2 = acc.2.2 := by
  intro l
  induction l with
  | nil => intro acc _; rfl
  | cons p rest ih =>
      intro acc h
      simp only [List.foldl_cons] at h ⊢
      have hle1 : acc.1 ≤ (p.2.foldl (statsStep cid) acc).1 := statsFoldInner_mono cid p.2 acc
      have hle2 := statsFoldOuter_mono cid rest (p.2.foldl (statsStep cid) acc)
      have heq : (p.2.foldl (statsStep cid) acc).1 = acc.1 := by omega
      rw [ih (p.2.foldl (statsStep cid) acc) (by omega), statsFoldInner_conf cid p.2 acc heq]

theorem count_zero_conf {evs : List (String × List Evidence)} {cid : String}
    (h : evidenceFoundCount evs cid = 0) : (gatherEvidenceStats evs cid).2.2 = 0 := by
  unfold evidenceFoundCount gatherEvidenceStats at *
  exact statsFoldOuter_conf cid evs (0, 0, 0) h

theorem count_pos_of_mem {evs : List (String × List Evidence)} {cid : String}
    {entry : String × List Evidence} {ev : Evidence}
    (hmem : entry ∈ evs) (hev : ev ∈ entry.2)
    (hm : evMatches cid ev.goal = true) (hf : ev.found = true) :
    1 ≤ evidenceFoundCount evs cid := by
  obtain ⟨det, l⟩ := entry
  change ev ∈ l at hev
  obtain ⟨l1, l2, rfl⟩ := List.append_of_mem hmem
  obtain ⟨e1, e2, rfl⟩ := List.append_of_mem hev
  unfold evidenceFoundCount gatherEvidenceStats
  simp only [List.foldl_append, List.foldl_cons]
  have hstep : ∀ acc : ℕ × ℕ × ℚ, acc.1 + 1 ≤
      ((e1 ++ ev :: e2).foldl (statsStep cid) acc).1 := by
    intro acc
    rw [List.foldl_append, List.foldl_cons]
    have h1 : acc.1 ≤ (e1.foldl (statsStep cid) acc).1 := statsFoldInner_mono cid e1 acc
    have h2 : (statsStep cid (e1.foldl (statsStep cid) acc) ev).1 =
        (e1.foldl (statsStep cid) acc).1 + 1 := by
      unfold statsStep; simp [hm, hf]
    have h3 := statsFoldInner_mono cid e2 (statsStep cid (e1.foldl (statsStep cid) acc) ev)
    omega
  have h4 := hstep (List.foldl (fun acc p => p.2.foldl (statsStep cid) acc) (0, 0, 0) l1)
  have h5 := statsFoldOuter_mono cid l2
    ((e1 ++ ev :: e2).foldl (statsStep cid)
      (List.foldl (fun acc p => p.2.foldl (statsStep cid) acc) (0, 0, 0) l1))
  simp only [List.foldl_append, List.foldl_cons] at h4 h5 ⊢
  omega

theorem count_zero_no_contra {evs : List (String × List Evidence)} {cid : String}
    (h : evidenceFoundCount evs cid = 0) :
    (detectCrossEvidenceContradiction evs cid).1 = false := by
  have hdocClaims : (match dictGet? evs "doc" with
      | some l => l.any (fun ev =>
          evMatches cid ev.goal && ev.found && ev.confidence > 3/5)
      | none => false) = false := by
    cases hdoc : dictGet? evs "doc" with
    | none => rfl
    | some l =>
        simp only [List.any_eq_false]
        intro ev hev
        intro hp
        obtain ⟨p, hpmem, hp1, hp2⟩ := dictGet?_mem hdoc
        have hm : evMatches cid ev.goal = true := by
          have := (Bool.and_eq_true _ _).mp hp
          exact ((Bool.and_eq_true _ _).mp this.1).1
        have hf : ev.found = true := by
          have := (Bool.and_eq_true _ _).mp hp
          exact ((Bool.and_eq_true _ _).mp this.1).2
        have : 1 ≤ evidenceFoundCount evs cid :=
          count_pos_of_mem hpmem (by rw [hp2]; exact hev) hm hf
        omega
  unfold detectCrossEvidenceContradiction
  simp only [hdocClaims, Bool.false_and, Bool.and_eq_true, Bool.false_eq_true, if_false]

theorem synthCore_of_conf_lt (s : AgentState) (cid : String)
    (ops : List JudicialOpinion)
    (h : (gatherEvidenceStats s.evidences cid).2.2 < 3/10) :
    (synthCore s cid ops).1 = 1 ∧ (synthCore s cid ops).2.1 =
      "CRITICAL MISSING COMPONENT: No tangible artifacts found matching " ++ cid ++ "." := by
  unfold synthCore
  simp only [applyCalibratedOverride, if_pos h]
  exact ⟨rfl, trivial⟩

theorem assembleResult_no_contra (s : AgentState) (cid : String) (sc : Scores)
    (f0 : ℤ) (rem : String) (dis : Option String) (tr : List TraceEntry)
    (h : (detectCrossEvidenceContradiction s.evidences cid).1 = false) :
    ((assembleResult s cid sc f0 rem dis tr).1).finalScore = max 1 (min 5 f0) ∧
    ((assembleResult s cid sc f0 rem dis tr).1).remediation = rem := by
  unfold assembleResult
  simp [h]

/-- C3.  If the count of evidence records matching the criterion with
`found = true` is zero, the synthesized result has final score 1 and the
missing-artifact remediation, irrespective of the persona scores. -/
theorem c3_fact_override (s : AgentState) (cid : String)
    (ops : List JudicialOpinion) (h : evidenceFoundCount s.evidences cid = 0) :
    ((synthCriterion s cid ops).1).finalScore = 1 ∧
    ((synthCriterion s cid ops).1).remediation =
      "CRITICAL MISSING COMPONENT: No tangible artifacts found matching " ++ cid ++ "." := by
  have hconf : (gatherEvidenceStats s.evidences cid).2.2 = 0 := count_zero_conf h
  have hc : (gatherEvidenceStats s.evidences cid).2.2 < 3/10 := by
    rw [hconf]; norm_num
  have hcore := synthCore_of_conf_lt s cid ops hc
  have hnc := count_zero_no_contra h
  have h1 := assembleResult_no_contra s cid (buildScores ops) (synthCore s cid ops).1
    (synthCore s cid ops).2.1 (synthCore s cid ops).2.2.1 (synthCore s cid ops).2.2.2 hnc
  rw [hcore.1] at h1
  rw [hcore.2] at h1
  rw [show synthCriterion s cid ops =
      assembleResult s cid (buildScores ops) (synthCore s cid ops).1
        (synthCore s cid ops).2.1 (synthCore s cid ops).2.2.1
        (synthCore s cid ops).2.2.2 from rfl]
  rw [hcore.1, hcore.2]
  exact ⟨by rw [h1.1]; rfl, h1.2⟩

/-- C3, witness: persona scores `[5,5,5]` for the criterion "testing" on a
state whose only evidence does not match it still yield final score 1 with
the missing-artifact remediation. -/
theorem c3_fact_override_witness :
    ((synthCriterion stateNoMatch "testing" opsAllFives).1).finalScore = 1 ∧
    ((synthCriterion stateNoMatch "testing" opsAllFives).1).remediation =
      "CRITICAL MISSING COMPONENT: No tangible artifacts found matching " ++ "testing" ++ "." :=
  c3_fact_override stateNoMatch "testing" opsAllFives (by with_unfolding_all decide)

theorem buildScores_foldl_prosecutor :
    ∀ (ops : List JudicialOpinion) (init : Scores),
      (∀ op ∈ ops, op.judge ≠ Judge.prosecutor) →
      (ops.foldl (fun sc op => sc.set op.judge op.score) init).prosecutor =
        init.prosecutor := by
  intro ops
  induction ops with
  | nil => intro init _; rfl
  | cons op rest ih =>
      intro init h
      rw [List.foldl_cons, ih _ (fun o ho => h o (List.mem_cons_of_mem op ho))]
      have hop := h op (List.mem_cons_self op rest)
      cases hj : op.judge <;> simp [Scores.set] <;> exact absurd hj hop

/-- C5, amended claim: the Synthesizer never raises on any input — a report
is produced whenever there are opinions (including an opinion whose
criterion identifier is the empty string, on which the source does not
raise either), and a persona absent from a criterion's opinions defaults to
the neutral score 3. -/
theorem c5_total_amended (s : AgentState) (h : ¬ s.opinions.isEmpty = true) :
    (chiefJusticeCall s).isSome = true ∧
    (∀ ops : List JudicialOpinion, (∀ op ∈ ops, op.judge ≠ Judge.prosecutor) →
      (buildScores ops).prosecutor = 3) := by
  constructor
  · unfold chiefJusticeCall
    rw [if_neg h]
    rfl
  · intro ops hops
    exact buildScores_foldl_prosecutor ops ⟨3, 3, 3⟩ hops

/-- C5, witness: the amended theorem applied to the state whose single
opinion (by the Defense) carries the empty criterion id. -/
theorem c5_total_amended_witness :
    (chiefJusticeCall stateEmptyCriterion).isSome = true ∧
    (buildScores stateEmptyCriterion.opinions).prosecutor = 3 :=
  ⟨(c5_total_amended stateEmptyCriterion (by with_unfolding_all decide)).1,
   (c5_total_amended stateEmptyCriterion (by with_unfolding_all decide)).2
     stateEmptyCriterion.opinions (by with_unfolding_all decide)⟩

theorem countOf_cons (k0 : String) (n : ℕ) (rest : List (String × ℕ)) (k : String) :
    countOf ((k0, n) :: rest) k = if k0 == k then n else countOf rest k := by
  by_cases h : k0 == k <;> simp [countOf, dictGet?, List.find?_cons, h]

theorem countOf_dictIncr (c : List (String × ℕ)) (k' k : String) :
    countOf (dictIncr c k') k = countOf c k + (if k' == k then 1 else 0) := by
  induction c with
  | nil =>
      by_cases h : k' == k <;>
        simp [dictIncr, countOf, dictGet?, List.find?, h]
  | cons p rest ih =>
      obtain ⟨k0, n⟩ := p
      by_cases h0 : k0 == k'
      · have hk0 : k0 = k' := eq_of_beq h0
        subst hk0
        have hinc : dictIncr ((k0, n) :: rest) k0 = (k0, n + 1) :: rest := by
          simp [dictIncr]
        rw [hinc, countOf_cons, countOf_cons]
        by_cases hk : k0 == k
        · rw [eq_of_beq hk]; simp
        · simp [hk]
      · have hinc : dictIncr ((k0, n) :: rest) k' = (k0, n) :: dictIncr rest k' := by
          simp [dictIncr, h0]
        rw [hinc, countOf_cons, countOf_cons]
        by_cases hk : k0 == k
        · have hkk : (k' == k) = false := by
            apply Bool.eq_false_iff.mpr
            intro hkk
            exact h0 (show (k0 == k') = true from
              beq_iff_eq.mpr ((eq_of_beq hk).trans (eq_of_beq hkk).symm))
          simp [hk, hkk]
        · simp [hk, ih]

theorem foldl_add_shift {α : Type} (g : α → ℕ) :
    ∀ (l : List α) (n : ℕ),
      l.foldl (fun n x => n + g x) n = n + l.foldl (fun n x => n + g x) 0 := by
  intro l
  induction l with
  | nil => intro n; simp
  | cons x xs ih =>
      intro n
      rw [List.foldl_cons, List.foldl_cons, ih (n + g x), ih (0 + g x)]
      omega

theorem totalOccurrences_cons (run : AuditRun) (runs : List AuditRun) (key : String) :
    totalOccurrences (run :: runs) key =
      (run.registryState.filter (fun p => evKey p.2 == key)).length +
        totalOccurrences runs key := by
  unfold totalOccurrences
  rw [List.foldl_cons]
  rw [foldl_add_shift (fun run : AuditRun =>
    (run.registryState.filter (fun p => evKey p.2 == key)).length)]
  omega

theorem countOf_recsFold (key : String) :
    ∀ (recs : List (String × EvidenceRecord)) (c0 : List (String × ℕ)),
      countOf (recs.foldl (fun c p => dictIncr c (evKey p.2)) c0) key =
        countOf c0 key + (recs.filter (fun p => evKey p.2 == key)).length := by
  intro recs
  induction recs with
  | nil => intro c0; simp
  | cons p rest ih =>
      intro c0
      rw [List.foldl_cons, ih (dictIncr c0 (evKey p.2)), countOf_dictIncr]
      by_cases h : evKey p.2 == key <;> simp [h] <;> omega

theorem countOf_buildCounts (key : String) :
    ∀ (runs : List AuditRun) (c0 : List (String × ℕ)),
      countOf (runs.foldl (fun cnts run =>
          run.registryState.foldl (fun c p => dictIncr c (evKey p.2)) cnts) c0) key =
        countOf c0 key + totalOccurrences runs key := by
  intro runs
  induction runs with
  | nil => intro c0; simp [totalOccurrences]
  | cons run rest ih =>
      intro c0
      rw [List.foldl_cons, ih, countOf_recsFold, totalOccurrences_cons]
      omega

theorem dictGet?_map_keyed {α β : Type} (g : String → α → β) :
    ∀ (l : List (String × α)) (k : String),
      dictGet? (l.map (fun p => (p.1, g p.1 p.2))) k = (dictGet? l k).map (g k) := by
  intro l
  induction l with
  | nil => intro k; rfl
  | cons p rest ih =>
      intro k
      obtain ⟨k0, v⟩ := p
      by_cases h : k0 == k
      · rw [eq_of_beq h]
        simp [dictGet?, List.find?_cons]
      · simp only [List.map_cons]
        rw [show dictGet? ((k0, g k0 v) :: rest.map (fun p => (p.1, g p.1 p.2))) k =
            dictGet? (rest.map (fun p => (p.1, g p.1 p.2))) k from by
          simp [dictGet?, List.find?_cons, h]]
        rw [show dictGet? ((k0, v) :: rest) k = dictGet? rest k from by
          simp [dictGet?, List.find?_cons, h]]
        exact ih k

theorem dictGet?_stab_map (q : String → ℚ) :
    ∀ (l : List (String × EvidenceRecord)) (k : String),
      dictGet? (l.map (fun p => (p.1, { p.2 with stabilityScore := q p.1 }))) k =
        (dictGet? l k).map (fun r => { r with stabilityScore := q k }) := by
  intro l
  induction l with
  | nil => intro k; rfl
  | cons p rest ih =>
      intro k
      obtain ⟨k0, v⟩ := p
      by_cases h : k0 == k
      · rw [eq_of_beq h]
        simp [dictGet?, List.find?_cons]
      · simp only [List.map_cons, dictGet?, List.find?_cons, h]
        exact ih k

/-- C7, amended claim: each merged record's `stabilityScore` equals the
number of evidence records across all runs with that stable identity,
divided by the number of runs (which coincides with `#runs containing an
equivalent record / #runs` only when each run holds at most one record per
identity), and every merged record with stability < 0.6 is flagged as
transient in the reasoning trace. -/
theorem c7_stability_amended (runs : List AuditRun) (key : String)
    (rec : EvidenceRecord)
    (h : dictGet? (consolidateEvidence runs).1 key = some rec) :
    rec.stabilityScore = (totalOccurrences runs key : ℚ) / (runs.length : ℚ) ∧
    (rec.stabilityScore < 3/5 →
      MetaTrace.transient rec.claimReference rec.stabilityScore ∈
        (consolidateEvidence runs).2) := by
  constructor
  · have hmap : dictGet? (consolidateEvidence runs).1 key =
        (dictGet? (buildAllEvidence runs) key).map (fun r =>
          { r with stabilityScore :=
              (countOf (buildCounts runs) key : ℚ) / (runs.length : ℚ) }) :=
      dictGet?_stab_map
        (fun k => (countOf (buildCounts runs) k : ℚ) / (runs.length : ℚ))
        (buildAllEvidence runs) key
    rw [hmap] at h
    rcases Option.map_eq_some'.mp h with ⟨r0, _, hrec⟩
    rw [← hrec]
    have hcnt : countOf (buildCounts runs) key = totalOccurrences runs key := by
      have := countOf_buildCounts key runs []
      simpa [countOf, dictGet?] using this
    simp [hcnt]
  · intro hlt
    rcases dictGet?_mem h with ⟨p, hp, hp1, hp2⟩
    have htr : (consolidateEvidence runs).2 =
        ((consolidateEvidence runs).1).foldl (fun tr p =>
          tr ++ (if p.2.stabilityScore < 3/5 then
            [MetaTrace.transient p.2.claimReference p.2.stabilityScore]
          else [])) [] := rfl
    rw [htr]
    refine mem_foldl_append_of_mem _ _ [] p _ hp ?_
    rw [hp2, if_pos hlt]
    exact List.mem_singleton.mpr rfl

/-- C7, witness: consolidating five runs of which exactly two contain the
identity `p:c` gives stability 2/5 < 0.6, and the record is flagged
transient. -/
theorem c7_stability_amended_witness :
    metaRecTwoOfFive.stabilityScore =
      (totalOccurrences runsTwoOfFive "p:c" : ℚ) / (runsTwoOfFive.length : ℚ) ∧
    (metaRecTwoOfFive.stabilityScore < 3/5 →
      MetaTrace.transient metaRecTwoOfFive.claimReference
        metaRecTwoOfFive.stabilityScore ∈ (consolidateEvidence runsTwoOfFive).2) :=
  c7_stability_amended runsTwoOfFive "p:c" metaRecTwoOfFive
    (by with_unfolding_all decide)

/-- C8.  For each criterion with linked evidence: mean stability < 0.5
reduces the meta-score by 0.5 (floored at 1.0); else mean stability < 0.7
reduces it by 0.2 (floored at 1.0); mean stability exactly 1.0 with score
≥ 4.0 sets it to exactly 5.0; otherwise it is unchanged; and every
adjustment appends a reasoning-trace entry. -/
theorem c8_meta_override (scores : List (String × ℚ))
    (reg : List (String × EvidenceRecord)) (tr : List MetaTrace)
    (i : ℕ) (cid : String) (q : ℚ)
    (hi : scores[i]? = some (cid, q))
    (hrel : metaRelevantEvidence reg cid ≠ []) :
    ((metaOverride scores reg tr).1)[i]? = some (cid,
      if avgStability reg cid < 1/2 then max 1 (q - 1/2)
      else if avgStability reg cid < 7/10 then max 1 (q - 1/5)
      else if avgStability reg cid = 1 ∧ 4 ≤ q then 5
      else q) ∧
    (avgStability reg cid < 7/10 →
      MetaTrace.penalized cid (if avgStability reg cid < 1/2 then 1/2 else 1/5)
        (avgStability reg cid) ∈ (metaOverride scores reg tr).2) ∧
    (¬ avgStability reg cid < 7/10 → avgStability reg cid = 1 → 4 ≤ q →
      MetaTrace.boosted cid ∈ (metaOverride scores reg tr).2) := by
  have hne : (metaRelevantEvidence reg cid).isEmpty = false := by
    cases hrel' : metaRelevantEvidence reg cid with
    | nil => exact absurd hrel' hrel
    | cons a l => rfl
  have hmem : (cid, q) ∈ scores := by
    have := List.getElem?_eq_some_iff.mp hi
    rcases this with ⟨hlen, hval⟩
    rw [← hval]
    exact List.getElem_mem hlen
  refine ⟨?_, ?_, ?_⟩
  · have hmap : ((metaOverride scores reg tr).1)[i]? =
        (scores[i]?).map (fun p => (p.1, adjustScore reg p.1 p.2)) := by
      exact List.getElem?_map (fun p => (p.1, adjustScore reg p.1 p.2)) scores i
    rw [hmap, hi]
    simp only [Option.map_some']
    have hadj : adjustScore reg cid q =
        (if avgStability reg cid < 1/2 then max 1 (q - 1/2)
         else if avgStability reg cid < 7/10 then max 1 (q - 1/5)
         else if avgStability reg cid = 1 ∧ 4 ≤ q then 5
         else q) := by
      unfold adjustScore
      simp only [hne, Bool.false_eq_true, if_false]
      split_ifs <;> first | rfl | linarith
    rw [hadj]
  · intro h2
    have he : MetaTrace.penalized cid
        (if avgStability reg cid < 1/2 then 1/2 else 1/5)
        (avgStability reg cid) ∈ metaTraceOf reg cid q := by
      unfold metaTraceOf
      simp only [hne, Bool.false_eq_true, if_false]
      rw [if_pos h2]
      exact List.mem_singleton.mpr rfl
    exact mem_foldl_append_of_mem _ scores tr (cid, q) _ hmem he
  · intro h2 h3 h4
    have he : MetaTrace.boosted cid ∈ metaTraceOf reg cid q := by
      unfold metaTraceOf
      simp only [hne, Bool.false_eq_true, if_false]
      rw [if_neg h2, if_pos ⟨h3, h4⟩]
      exact List.mem_singleton.mpr rfl
    exact mem_foldl_append_of_mem _ scores tr (cid, q) _ hmem he

/-- C8, witness: meta-score 4.5 for "architecture" with all linked evidence
at stability 1.0 is boosted to exactly 5.0, and the boost is logged. -/
theorem c8_meta_override_witness :
    ((metaOverride metaScoresPair metaRegistryPair []).1)[0]? = some ("architecture",
      if avgStability metaRegistryPair "architecture" < 1/2 then max 1 ((9:ℚ)/2 - 1/2)
      else if avgStability metaRegistryPair "architecture" < 7/10 then max 1 ((9:ℚ)/2 - 1/5)
      else if avgStability metaRegistryPair "architecture" = 1 ∧ 4 ≤ (9:ℚ)/2 then 5
      else (9:ℚ)/2) ∧
    (avgStability metaRegistryPair "architecture" < 7/10 →
      MetaTrace.penalized "architecture"
        (if avgStability metaRegistryPair "architecture" < 1/2 then 1/2 else 1/5)
        (avgStability metaRegistryPair "architecture") ∈
          (metaOverride metaScoresPair metaRegistryPair []).2) ∧
    (¬ avgStability metaRegistryPair "architecture" < 7/10 →
      avgStability metaRegistryPair "architecture" = 1 → 4 ≤ (9:ℚ)/2 →
      MetaTrace.boosted "architecture" ∈
        (metaOverride metaScoresPair metaRegistryPair []).2) :=
  c8_meta_override metaScoresPair metaRegistryPair [] 0 "architecture" ((9:ℚ)/2)
    (by with_unfolding_all decide) (by with_unfolding_all decide)

theorem find?_mutateFirst_mem {α : Type} {p : α → Bool} {f : α → α} :
    ∀ {l : List α} {a : α}, l.find? p = some a → f a ∈ mutateFirst p f l := by
  intro l
  induction l with
  | nil => intro a h; simp [List.find?] at h
  | cons hd tl ih =>
      intro a h
      unfold mutateFirst
      by_cases hp : p hd
      · rw [List.find?_cons_of_pos _ hp] at h
        rw [if_pos hp, Option.some.inj h]
        exact List.mem_cons_self _ _
      · rw [List.find?_cons_of_neg _ hp] at h
        rw [if_neg hp]
        exact List.mem_cons_of_mem hd (ih h)

/-- C9, amended claim: when the *first* architecture-named criterion (in
synthesis order) has final score ≥ 4 and the *first* state-named criterion
has final score ≤ 2, the coherence pass appends the systemic-incoherence
contradiction and the report contains that architecture criterion with its
final score reduced by 1. -/
theorem c9_coherence_amended (rs : List CriterionResult) (cs : List String)
    (arch st : CriterionResult)
    (harch : rs.find? (fun c => pyIn "architecture" c.dimensionId.toLower) = some arch)
    (hst : rs.find? (fun c => pyIn "state" c.dimensionId.toLower) = some st)
    (h4 : 4 ≤ arch.finalScore) (h2 : st.finalScore ≤ 2) :
    (applyCoherence1 rs cs).2 = cs ++
      ["Systemic Incoherence: High abstraction (Architecture) built on failing foundation (State Management)."] ∧
    { arch with
      finalScore := arch.finalScore - 1,
      reasoningTrace := arch.reasoningTrace ++ [TraceEntry.coherencePenalty] } ∈
      (applyCoherence1 rs cs).1 := by
  unfold applyCoherence1
  simp only [harch, hst]
  rw [if_pos ⟨h4, h2⟩]
  exact ⟨rfl, find?_mutateFirst_mem harch⟩

/-- C9, witness: the amended theorem applied to a two-element result list
with the architecture criterion at 5 and the state criterion at 1. -/
theorem c9_coherence_amended_witness :
    (applyCoherence1 [archCrit5, stateCrit1] []).2 = [] ++
      ["Systemic Incoherence: High abstraction (Architecture) built on failing foundation (State Management)."] ∧
    { archCrit5 with
      finalScore := archCrit5.finalScore - 1,
      reasoningTrace := archCrit5.reasoningTrace ++ [TraceEntry.coherencePenalty] } ∈
      (applyCoherence1 [archCrit5, stateCrit1] []).1 :=
  c9_coherence_amended [archCrit5, stateCrit1] [] archCrit5 stateCrit1
    (by with_unfolding_all decide) (by with_unfolding_all decide)
    (by with_unfolding_all decide) (by with_unfolding_all decide)

theorem pyRound_ge (n : ℤ) (q : ℚ) (h : (n : ℚ) ≤ q) : n ≤ pyRound q := by
  have hf : n ≤ ⌊q⌋ := Int.le_floor.mpr h
  show n ≤ (if q - (⌊q⌋ : ℚ) < 1/2 then ⌊q⌋
    else if 1/2 < q - (⌊q⌋ : ℚ) then ⌊q⌋ + 1
    else if ⌊q⌋ % 2 = 0 then ⌊q⌋ else ⌊q⌋ + 1)
  split_ifs <;> omega

theorem scoresSet_get (init : Scores) (j0 j : Judge) (v : ℤ) :
    (init.set j0 v).get j = if j0 = j then v else init.get j := by
  cases j0 <;> cases j <;> simp [Scores.set, Scores.get]

theorem foldlScores_ge :
    ∀ (ops : List JudicialOpinion) (init : Scores),
      (∀ op ∈ ops, 1 ≤ op.score) → (∀ j, 1 ≤ init.get j) →
      ∀ j, 1 ≤ ((ops.foldl (fun sc op => sc.set op.judge op.score) init).get j) := by
  intro ops
  induction ops with
  | nil => intro init _ hinit j; exact hinit j
  | cons op rest ih =>
      intro init h hinit j
      rw [List.foldl_cons]
      refine ih (init.set op.judge op.score)
        (fun o ho => h o (List.mem_cons_of_mem op ho)) (fun j' => ?_) j
      rw [scoresSet_get]
      split_ifs
      · exact h op (List.mem_cons_self op rest)
      · exact hinit j'

theorem buildScores_ge (ops : List JudicialOpinion)
    (h : ∀ op ∈ ops, 1 ≤ op.score) : ∀ j, 1 ≤ (buildScores ops).get j :=
  foldlScores_ge ops ⟨3, 3, 3⟩ h (by intro j; cases j <;> simp [Scores.get])

theorem weightFold_ge_len :
    ∀ (l : List Judge) (b : ℤ),
      b + l.length ≤ l.foldl (fun acc j =>
        acc + (if j = Judge.techLead then 2 else 1)) b := by
  intro l
  induction l with
  | nil => intro b; simp
  | cons j rest ih =>
      intro b
      rw [List.foldl_cons]
      have := ih (b + (if j = Judge.techLead then 2 else 1))
      simp only [List.length_cons]
      split_ifs at this ⊢ <;> push_cast at this ⊢ <;> omega

theorem weightedSum_ge_weight (scores : Scores) (h : ∀ j, 1 ≤ scores.get j) :
    ∀ (l : List Judge) (a b : ℤ), b ≤ a →
      l.foldl (fun acc j => acc + (if j = Judge.techLead then 2 else 1)) b ≤
      l.foldl (fun acc j =>
        acc + (if j = Judge.techLead then 2 * scores.get j else scores.get j)) a := by
  intro l
  induction l with
  | nil => intro a b hba; simpa using hba
  | cons j rest ih =>
      intro a b hba
      rw [List.foldl_cons, List.foldl_cons]
      refine ih _ _ ?_
      have hj := h j
      split_ifs <;> omega

theorem scoreSum_ge_len (scores : Scores) (h : ∀ j, 1 ≤ scores.get j) :
    ∀ (l : List Judge) (b : ℤ),
      b + l.length ≤ l.foldl (fun acc j => acc + scores.get j) b := by
  intro l
  induction l with
  | nil => intro b; simp
  | cons j rest ih =>
      intro b
      rw [List.foldl_cons]
      have h1 := ih (b + scores.get j)
      have hj := h j
      simp only [List.length_cons]
      push_cast at h1 ⊢
      omega

theorem applyFunctionalityWeightAndMedian_ge_one (cid : String) (scores : Scores)
    (vj : List Judge) (tr : List TraceEntry) (h : ∀ j, 1 ≤ scores.get j) :
    1 ≤ (applyFunctionalityWeightAndMedian cid scores vj tr).1 := by
  unfold applyFunctionalityWeightAndMedian
  by_cases he : vj.isEmpty
  · rw [if_pos he]
  · rw [if_neg he]
    have hlen : 1 ≤ vj.length := by
      cases vj with
      | nil => exact absurd rfl he
      | cons a l => simp
    by_cases harch : (pyIn "architecture" cid.toLower ||
        pyIn "orchestration" cid.toLower) && vj.contains Judge.techLead
    · rw [if_pos harch]
      show 1 ≤ pyRound _
      apply pyRound_ge
      have h1 := weightFold_ge_len vj 0
      have h2 := weightedSum_ge_weight scores h vj 0 0 le_rfl
      have hposZ : (0:ℤ) <
          vj.foldl (fun acc j => acc + (if j = Judge.techLead then 2 else 1)) 0 := by
        omega
      have hpos : (0 : ℚ) <
          ((vj.foldl (fun acc j => acc + (if j = Judge.techLead then 2 else 1)) 0 : ℤ) : ℚ) := by
        exact_mod_cast hposZ
      rw [le_div_iff hpos]
      push_cast
      have h3 : ((vj.foldl (fun acc j =>
            acc + (if j = Judge.techLead then 2 else 1)) 0 : ℤ) : ℚ) ≤
          ((vj.foldl (fun acc j =>
            acc + (if j = Judge.techLead then 2 * scores.get j else scores.get j)) 0 : ℤ) : ℚ) := by
        exact_mod_cast h2
      linarith
    · rw [if_neg harch]
      show 1 ≤ pyRound _
      apply pyRound_ge
      have h1 := scoreSum_ge_len scores h vj 0
      have hpos : (0 : ℚ) < ((vj.length : ℕ) : ℚ) := by
        exact_mod_cast hlen
      rw [le_div_iff hpos]
      push_cast
      have h3 : ((vj.length : ℕ) : ℚ) ≤
          ((vj.foldl (fun acc j => acc + scores.get j) 0 : ℤ) : ℚ) := by
        have h4 : ((vj.length : ℕ) : ℤ) ≤ vj.foldl (fun acc j => acc + scores.get j) 0 := by
          omega
        exact_mod_cast h4
      linarith

theorem applySecurityOverride_fst {cid : String} {scores : Scores}
    {rem : String} {tr : List TraceEntry} {x : ℤ}
    (h : (applySecurityOverride cid scores rem tr).1 = some x) :
    x = min scores.techLead 3 := by
  unfold applySecurityOverride at h
  split_ifs at h <;> simp at h
  exact h.symm

theorem synthCore_ge_one (s : AgentState) (cid : String)
    (ops : List JudicialOpinion) (h : ∀ op ∈ ops, 1 ≤ op.score) :
    1 ≤ (synthCore s cid ops).1 := by
  have hsc := buildScores_ge ops h
  have htl : 1 ≤ (buildScores ops).techLead := hsc Judge.techLead
  have hfs := fun vj tr => applyFunctionalityWeightAndMedian_ge_one cid
    (buildScores ops) vj tr hsc
  unfold synthCore
  by_cases hc1 : (gatherEvidenceStats s.evidences cid).2.2 < 3/10
  · simp only [applyCalibratedOverride, if_pos hc1, Option.getD_some]
    exact le_refl 1
  · by_cases hc2 : (gatherEvidenceStats s.evidences cid).2.2 < 7/10
    · simp only [applyCalibratedOverride, if_neg hc1, if_pos hc2]
      rcases hsec : (applySecurityOverride cid (buildScores ops)
          ("GENERIC IMPLEMENTATION: Only basic signals found for " ++ cid ++
            ". Lacks advanced architectural patterns.")
          ((validateCitations s.registry (buildCited ops)).2 ++
            [TraceEntry.calibratedModerate
              (gatherEvidenceStats s.evidences cid).2.2])).1 with _ | x
      · simp only [hsec, reduceIte, Option.getD_some]
        exact le_min (hfs _ _) (by norm_num)
      · simp only [hsec]
        have hx := applySecurityOverride_fst hsec
        omega
    · simp only [applyCalibratedOverride, if_neg hc1, if_neg hc2]
      rcases hsec : (applySecurityOverride cid (buildScores ops) "Continue tracking."
          ((validateCitations s.registry (buildCited ops)).2 ++
            [TraceEntry.calibratedPassed
              (gatherEvidenceStats s.evidences cid).2.2])).1 with _ | x
      · simp only [hsec, reduceCtorEq, reduceIte]
        exact hfs _ _
      · simp only [hsec]
        have hx := applySecurityOverride_fst hsec
        omega

theorem assembleResult_penalty (s : AgentState) (cid : String) (sc : Scores)
    (f0 : ℤ) (rem : String) (dis : Option String) (tr : List TraceEntry)
    (h : 1 ≤ f0) :
    0 ≤ ((assembleResult s cid sc f0 rem dis tr).1).penaltyApplied ∧
    ((assembleResult s cid sc f0 rem dis tr).1).penaltyApplied ≤ 2 ∧
    ((assembleResult s cid sc f0 rem dis tr).1).contradictionFlag =
      (detectCrossEvidenceContradiction s.evidences cid).1 := by
  unfold assembleResult
  by_cases hco : (detectCrossEvidenceContradiction s.evidences cid).1 <;>
    simp [hco] <;> omega

/-- C10.  For every per-criterion synthesis with opinion scores in the
pydantic-enforced range (score ≥ 1), `penaltyApplied` lies in `[0, 2]`, and
`contradictionFlag` equals the cross-evidence contradiction detection
outcome — in particular it is `true` whenever a contradiction is detected,
even when the score was already at the floor of 1 and `penaltyApplied` is
0. -/
theorem c10_penalty_bounds (s : AgentState) (cid : String)
    (ops : List JudicialOpinion) (h : ∀ op ∈ ops, 1 ≤ op.score) :
    0 ≤ ((synthCriterion s cid ops).1).penaltyApplied ∧
    ((synthCriterion s cid ops).1).penaltyApplied ≤ 2 ∧
    ((synthCriterion s cid ops).1).contradictionFlag =
      (detectCrossEvidenceContradiction s.evidences cid).1 := by
  have hge := synthCore_ge_one s cid ops h
  rw [show synthCriterion s cid ops =
      assembleResult s cid (buildScores ops) (synthCore s cid ops).1
        (synthCore s cid ops).2.1 (synthCore s cid ops).2.2.1
        (synthCore s cid ops).2.2.2 from rfl]
  exact assembleResult_penalty s cid (buildScores ops) (synthCore s cid ops).1
    (synthCore s cid ops).2.1 (synthCore s cid ops).2.2.1
    (synthCore s cid ops).2.2.2 hge

/-- C10, witness: the bounds applied to the "quality" criterion of
`stateGhostCitation` (penalty 0, flag false there). -/
theorem c10_penalty_bounds_witness :
    0 ≤ ((synthCriterion stateGhostCitation "quality"
      stateGhostCitation.opinions).1).penaltyApplied ∧
    ((synthCriterion stateGhostCitation "quality"
      stateGhostCitation.opinions).1).penaltyApplied ≤ 2 ∧
    ((synthCriterion stateGhostCitation "quality"
      stateGhostCitation.opinions).1).contradictionFlag =
      (detectCrossEvidenceContradiction stateGhostCitation.evidences "quality").1 :=
  c10_penalty_bounds stateGhostCitation "quality" stateGhostCitation.opinions
    (by with_unfolding_all decide)
